import Mathlib

/-!
Verification of the chat-personality-engine repository.

The development shallowly embeds the two Python modules
`memory_extractor.py` and `personality_engine.py`:

* strings are `String` / `List Char`;
* the few regular expressions used by the extractor are embedded as an
  explicit abstract-syntax tree (`RE`) together with a backtracking
  matcher (`mmatch`) that follows Python `re` semantics (leftmost
  search, greedy / lazy one-or-more over character classes, ordered
  alternation, capture groups, the `$` anchor, and the `re.IGNORECASE`
  flag);
* Python truthiness of the mutable `facts` dictionary is modelled with
  `Option` fields plus an explicit cleanup pass, mirroring the final
  comprehension that drops falsy values.

All recursive definitions are structurally recursive (string-consuming
helpers carry an explicit fuel bounded by the string length), so every
embedded function evaluates inside the kernel and concrete runs can be
settled by `decide` / `rfl`.

Character classes are interpreted over the ASCII range, which covers
every character the repository's rule tables and the statements below
use (Python's `\s` and `str.lower` additionally handle exotic Unicode
whitespace and case, which none of the embedded rule tables contain).
-/

set_option maxRecDepth 16000

namespace ChatEngine

/-! ## Basic character helpers (ASCII fragments of Python `str` methods) -/

/-- Python `str.lower` on one ASCII character. -/
def pyLowerChar (c : Char) : Char :=
  if 65 ≤ c.toNat ∧ c.toNat ≤ 90 then Char.ofNat (c.toNat + 32) else c

/-- Python `str.upper` on one ASCII character. -/
def pyUpperChar (c : Char) : Char :=
  if 97 ≤ c.toNat ∧ c.toNat ≤ 122 then Char.ofNat (c.toNat - 32) else c

/-- Python `str.lower` of a string, character by character. -/
def pyLower (s : String) : String := String.mk (s.data.map pyLowerChar)

/-- The whitespace characters recognised by Python's `str.strip` / `\s`
(ASCII range: space, tab, linefeed, vertical tab, formfeed, carriage
return, and the separator control characters 28-31). -/
def isWsChar (c : Char) : Bool :=
  c.toNat = 32 || (9 ≤ c.toNat && c.toNat ≤ 13) || (28 ≤ c.toNat && c.toNat ≤ 31)

/-- Python `str.strip()` on a character list. -/
def stripL (l : List Char) : List Char :=
  ((l.dropWhile isWsChar).reverse.dropWhile isWsChar).reverse

/-- Python `str.strip()`. -/
def pyStrip (s : String) : String := String.mk (stripL s.data)

/-- Python's `sub in s` substring test, on lists. -/
def containsL (sub : List Char) : List Char → Bool
  | [] => sub.isEmpty
  | c :: rest => sub.isPrefixOf (c :: rest) || containsL sub rest

/-- Python `sub in s`. -/
def containsS (s sub : String) : Bool := containsL sub.data s.data

/-- Fuel-driven core of Python `str.replace(old, new)`: replace every
non-overlapping occurrence from the left.  The fuel only serves
structural termination; it never runs out when it starts at the length
of `s` (each step consumes at least one character, since the sources
only replace non-empty `old`, which the guard reflects). -/
def replF (old new : List Char) : Nat → List Char → List Char
  | _, [] => []
  | 0, s => s
  | fuel + 1, c :: rest =>
    if old ≠ [] ∧ old.isPrefixOf (c :: rest) then
      new ++ replF old new fuel ((c :: rest).drop old.length)
    else
      c :: replF old new fuel rest

/-- Python `str.replace(old, new)`. -/
def pyReplace (s old new : String) : String :=
  String.mk (replF old.data new.data s.data.length s.data)

/-- Fuel-driven core of Python `str.split(sep)` with a non-empty
separator (fuel as in `replF`). -/
def splitF (sep : List Char) : Nat → List Char → List (List Char)
  | _, [] => [[]]
  | 0, s => [s]
  | fuel + 1, c :: rest =>
    if sep ≠ [] ∧ sep.isPrefixOf (c :: rest) then
      [] :: splitF sep fuel ((c :: rest).drop sep.length)
    else
      match splitF sep fuel rest with
      | [] => [[c]]
      | hd :: tl => (c :: hd) :: tl

/-- Python `s.split(sep)`. -/
def pySplit (s sep : String) : List String :=
  (splitF sep.data s.data.length s.data).map String.mk

/-- Python `int()` on a capture of digits. -/
def natOfDigits (l : List Char) : Nat := l.foldl (fun n c => n * 10 + (c.toNat - 48)) 0

/-! ## A small regex engine (Python `re` semantics for the fragment used)

The extractor uses only: literal runs, character classes, greedy `+`,
lazy `+?`, bounded greedy repetition `{lo,hi}` of a class, option `?`,
ordered (non-capturing) alternation, numbered capture groups, and the
`$` anchor inside `(?:\.|!|$)`.  The matcher is written in
continuation-passing style so that backtracking follows exactly the
priority order of Python's backtracking engine: leftmost start wins,
within a start the pattern alternatives are tried in order, greedy
quantifiers prefer to consume more, lazy ones less. -/

/-- A character class: a set of inclusive ASCII ranges, possibly
negated (for `[^...]`). -/
structure Cls where
  neg : Bool
  ranges : List (Char × Char)
deriving Repr, DecidableEq

/-- Raw membership of `ch` in the ranges (ignoring negation). -/
def Cls.inRanges (c : Cls) (ch : Char) : Bool :=
  c.ranges.any fun r => r.1.toNat ≤ ch.toNat && ch.toNat ≤ r.2.toNat

/-- Class membership; with `ic` (IGNORECASE) a character also counts
when one of its case variants lies in the ranges, and negation applies
after that closure, as in Python. -/
def Cls.mem (ic : Bool) (c : Cls) (ch : Char) : Bool :=
  (c.inRanges ch || (ic && (c.inRanges (pyLowerChar ch) || c.inRanges (pyUpperChar ch)))) != c.neg

/-- Abstract syntax of the regex fragment used by the repository.
Sequencing and alternation are binary (`eps` is the neutral sequence);
the list-shaped Python syntax is rebuilt with `reseq` / `realt`. -/
inductive RE where
  | eps
  | lit (w : List Char)
  | cls (c : Cls)
  | plusG (c : Cls)
  | plusL (c : Cls)
  | repg (c : Cls) (lo hi : Nat)
  | opt (r : RE)
  | alt2 (r1 r2 : RE)
  | cat (r1 r2 : RE)
  | grp (n : Nat) (r : RE)
  | eos
deriving Repr

/-- Right-nested sequencing of a list of regexes. -/
def reseq (rs : List RE) : RE := rs.foldr .cat .eps

/-- Right-nested ordered alternation of a non-empty list of regexes. -/
def realt : List RE → RE
  | [] => .eps
  | [r] => r
  | r :: rs => .alt2 r (realt rs)

/-- Captures: group number to captured text, most recent first. -/
abbrev Caps := List (Nat × List Char)

def setCap (cp : Caps) (n : Nat) (w : List Char) : Caps := (n, w) :: cp

def getCap (cp : Caps) (n : Nat) : Option (List Char) :=
  match cp.find? (fun p => p.1 == n) with
  | some p => some p.2
  | none => none

/-- Case-aware literal test: does `w` start the string `s` (with
IGNORECASE folding when `ic`)? -/
def litAt (ic : Bool) : List Char → List Char → Bool
  | [], _ => true
  | _ :: _, [] => false
  | a :: as, b :: bs =>
    (if ic then pyLowerChar a == pyLowerChar b else a == b) && litAt ic as bs

/-- Length of the maximal run of characters of `s` inside class `c`. -/
def runLen (ic : Bool) (c : Cls) : List Char → Nat
  | [] => 0
  | ch :: rest => if c.mem ic ch then runLen ic c rest + 1 else 0

/-- `[n, n-1, ..., lo]` (empty when `n < lo`); candidate lengths for a
greedy quantifier. -/
def descLens : Nat → Nat → List Nat
  | 0, _ => []
  | n + 1, lo => if n + 1 < lo then [] else (n + 1) :: descLens n lo

/-- `[st, st+1, ..., st+cnt-1]`; candidate lengths for a lazy
quantifier are `ascLensAux cnt 1`. -/
def ascLensAux : Nat → Nat → List Nat
  | 0, _ => []
  | cnt + 1, st => st :: ascLensAux cnt (st + 1)

/-- Try consuming each candidate length in order, backtracking into the
continuation `k`. -/
def tryLens (s : List Char) (cp : Caps) (k : List Char → Caps → Option Caps) :
    List Nat → Option Caps
  | [] => none
  | l :: rest =>
    match k (s.drop l) cp with
    | some r => some r
    | none => tryLens s cp k rest

/-- Backtracking matcher in continuation-passing style.  `mmatch ic re s
cp k` tries to match `re` at the start of `s` with captures `cp`,
calling `k` on the remaining input for every way of matching, in
Python's priority order, and returns the first overall success. -/
def mmatch (ic : Bool) : RE → List Char → Caps → (List Char → Caps → Option Caps) → Option Caps
  | .eps, s, cp, k => k s cp
  | .lit w, s, cp, k => if litAt ic w s then k (s.drop w.length) cp else none
  | .cls c, s, cp, k =>
    match s with
    | [] => none
    | ch :: rest => if c.mem ic ch then k rest cp else none
  | .plusG c, s, cp, k => tryLens s cp k (descLens (runLen ic c s) 1)
  | .plusL c, s, cp, k => tryLens s cp k (ascLensAux (runLen ic c s) 1)
  | .repg c lo hi, s, cp, k =>
    let n := min (runLen ic c s) hi
    if n < lo then none else
      if lo = 0 then
        match tryLens s cp k (descLens n 1) with
        | some r => some r
        | none => k s cp
      else tryLens s cp k (descLens n lo)
  | .opt r, s, cp, k =>
    match mmatch ic r s cp k with
    | some res => some res
    | none => k s cp
  | .alt2 r1 r2, s, cp, k =>
    match mmatch ic r1 s cp k with
    | some res => some res
    | none => mmatch ic r2 s cp k
  | .cat r1 r2, s, cp, k => mmatch ic r1 s cp (fun s2 cp2 => mmatch ic r2 s2 cp2 k)
  | .grp n r, s, cp, k =>
    mmatch ic r s cp (fun s2 cp2 => k s2 (setCap cp2 n (s.take (s.length - s2.length))))
  | .eos, s, cp, k => if s.isEmpty || s == [Char.ofNat 10] then k s cp else none

/-- Top-level continuation: accept whatever remains. -/
def topK : List Char → Caps → Option Caps := fun _ cp => some cp

/-- `re.search`: try every start position from the left; at the first
position where the pattern matches, return its captures. -/
def reSearchL (ic : Bool) (re : RE) : List Char → Option Caps
  | [] =>
    (match mmatch ic re [] [] topK with
     | some cp => some cp
     | none => none)
  | c :: rest =>
    match mmatch ic re (c :: rest) [] topK with
    | some cp => some cp
    | none => reSearchL ic re rest

def reSearch (ic : Bool) (re : RE) (s : String) : Option Caps := reSearchL ic re s.data

/-- `match.group(n)` of a successful search (all groups of the embedded
patterns participate whenever the overall pattern matches). -/
def group (cp : Caps) (n : Nat) : String := String.mk ((getCap cp n).getD [])

/-- Fuel-driven core of `re.sub(re, "", s)`: delete every
non-overlapping match, scanning from the left (fuel as in `replF`; the
sources only use deletion patterns that consume at least one
character, which the empty-match guard reflects). -/
def reSubDelF (ic : Bool) (re : RE) : Nat → List Char → List Char
  | _, [] => []
  | 0, s => s
  | fuel + 1, c :: rest =>
    match mmatch ic (.grp 0 re) (c :: rest) [] topK with
    | some cp =>
      match (getCap cp 0).getD [] with
      | [] => c :: reSubDelF ic re fuel rest
      | d :: ds => reSubDelF ic re fuel ((c :: rest).drop (d :: ds).length)
    | none => c :: reSubDelF ic re fuel rest

/-- `re.sub(re, "", s)` on lists. -/
def reSubDel (ic : Bool) (re : RE) (s : List Char) : List Char :=
  reSubDelF ic re s.length s

end ChatEngine

namespace ChatEngine

/-! ## `memory_extractor.py`: rule tables and patterns

Each Python regex literal of the source is transcribed into the `RE`
syntax.  Classes: `[A-Z]`, `[a-z]`, `[a-zA-Z\s]`, `[a-z\s]`, `\d`,
`\s`, `[^.]`, `[^.!?]`. -/

def wsRanges : List (Char × Char) :=
  [(Char.ofNat 32, Char.ofNat 32), (Char.ofNat 9, Char.ofNat 13), (Char.ofNat 28, Char.ofNat 31)]

def clsAZ : Cls := ⟨false, [('A', 'Z')]⟩
def clsaz : Cls := ⟨false, [('a', 'z')]⟩
def clsAlphaWs : Cls := ⟨false, [('a', 'z'), ('A', 'Z')] ++ wsRanges⟩
def clsLowWs : Cls := ⟨false, [('a', 'z')] ++ wsRanges⟩
def clsDigit : Cls := ⟨false, [('0', '9')]⟩
def clsWs : Cls := ⟨false, wsRanges⟩
def clsNotDot : Cls := ⟨true, [('.', '.')]⟩
def clsNotTerm : Cls := ⟨true, [('.', '.'), ('!', '!'), ('?', '?')]⟩

/-- `([A-Z][a-z]+)` as group 1. -/
def capWord : RE := .grp 1 (reseq [.cls clsAZ, .plusG clsaz])

/-- The four name patterns, in source order. -/
def namePatterns : List RE :=
  [reseq [.lit "my name is ".data, capWord],
   reseq [.lit "i\x27m ".data, capWord],
   reseq [.lit "i am ".data, capWord],
   reseq [.lit "name is ".data, capWord]]

/-- `([A-Z][a-zA-Z\s]+)` as group 1. -/
def capPlace : RE := .grp 1 (reseq [.cls clsAZ, .plusG clsAlphaWs])

/-- The three location patterns, in source order. -/
def locationPatterns : List RE :=
  [reseq [.lit "from ".data, capPlace],
   reseq [.lit "live in ".data, capPlace],
   reseq [.lit "in ".data, capPlace, .lit ",".data]]

/-- `(?:a |an )?([a-z\s]+) (?:at|for) ([A-Z][a-zA-Z\s]+)`, the common
tail of the three job patterns. -/
def jobTail : List RE :=
  [.opt (realt [.lit "a ".data, .lit "an ".data]),
   .grp 1 (.plusG clsLowWs), .lit " ".data,
   realt [.lit "at".data, .lit "for".data], .lit " ".data,
   .grp 2 (reseq [.cls clsAZ, .plusG clsAlphaWs])]

/-- The three job patterns, in source order. -/
def jobPatterns : List RE :=
  [reseq (.lit "work as ".data :: jobTail),
   reseq (.lit "i\x27m ".data :: jobTail),
   reseq (.lit "i am ".data :: jobTail)]

/-- `([A-Z][a-z]+\s\d{1,2}(?:st|nd|rd|th)?,?\s\d{4})` as group 1. -/
def capDate : RE :=
  .grp 1 (reseq [.cls clsAZ, .plusG clsaz, .cls clsWs, .repg clsDigit 1 2,
                .opt (realt [.lit "st".data, .lit "nd".data, .lit "rd".data, .lit "th".data]),
                .opt (.lit ",".data), .cls clsWs, .repg clsDigit 4 4])

/-- The two birthday patterns, in source order. -/
def birthdayPatterns : List RE :=
  [reseq [.lit "birthday is ".data, .opt (.lit "on ".data), capDate],
   reseq [.lit "born ".data, .opt (.lit "on ".data), capDate]]

/-- The four age patterns, in source order. -/
def agePatterns : List RE :=
  [reseq [.lit "turning ".data, .grp 1 (.plusG clsDigit)],
   reseq [.lit "i\x27m ".data, .grp 1 (.plusG clsDigit)],
   reseq [.lit "i am ".data, .grp 1 (.plusG clsDigit)],
   reseq [.lit "age of ".data, .grp 1 (.plusG clsDigit)]]

/-- `allergic to ([^.]+)`. -/
def allergyPattern : RE := reseq [.lit "allergic to ".data, .grp 1 (.plusG clsNotDot)]

/-! ### Per-message extraction of the scalar fact categories

Each function is the body of the corresponding `for pattern in ...`
loop of `extract_personal_facts`, for one message: the first pattern
that matches (searched with `re.IGNORECASE` on the raw message) wins. -/

/-- Name category: first matching name pattern's `group(1)`. -/
def extractName (message : String) : Option String :=
  namePatterns.findSome? fun p => (reSearch true p message).map fun cp => group cp 1

/-- Location category: first location pattern whose stripped `group(1)`
passes the false-positive filter; the loop `break` sits inside that
filter, so a match failing the filter falls through to the next
pattern. -/
def extractLoc (message : String) : Option String :=
  locationPatterns.findSome? fun p =>
    match reSearch true p message with
    | some cp =>
      let location := pyStrip (group cp 1)
      if location ∉ (["The", "A", "An"] : List String) ∧ location.length > 2 then
        some location
      else none
    | none => none

/-- Job category: first matching job pattern's stripped `group(1)`
(role) and `group(2)` (company). -/
def extractJob (message : String) : Option (String × String) :=
  jobPatterns.findSome? fun p =>
    (reSearch true p message).map fun cp => (pyStrip (group cp 1), pyStrip (group cp 2))

/-- Birthday category: first matching birthday pattern's stripped
`group(1)`. -/
def extractBirthday (message : String) : Option String :=
  birthdayPatterns.findSome? fun p =>
    (reSearch true p message).map fun cp => pyStrip (group cp 1)

/-- Age category: first matching age pattern's `group(1)` through
`int()` (a digit capture always converts, so the `except: pass` of the
source is dead code). -/
def extractAge (message : String) : Option Nat :=
  agePatterns.findSome? fun p =>
    (reSearch true p message).map fun cp => natOfDigits ((getCap cp 1).getD [])

/-- Allergy segments contributed by one (already lowercased) message:
`group(1)` of `allergic to ([^.]+)` split on the substring `"and"`,
each piece stripped. -/
def allergySegsL (message_lower : String) : List String :=
  if containsS message_lower "allergic" then
    match reSearch false allergyPattern message_lower with
    | some cp => (pySplit (group cp 1) "and").map pyStrip
    | none => []
  else []

/-- Allergy segments contributed by one raw message. -/
def allergySegs (message : String) : List String := allergySegsL (pyLower message)

/-- The mutable `facts` dictionary of `extract_personal_facts`.
`none` plays the role of the initial `None` (scalar) entries; the list
fields start empty.  `other_facts` is declared by the source but never
written. -/
structure Facts where
  name : Option String := none
  city : Option String := none
  location : Option String := none
  job_role : Option String := none
  company : Option String := none
  birthday : Option String := none
  age : Option Nat := none
  allergies : List String := []
  dietary_preferences : List String := []
  other_facts : List String := []
deriving Repr, DecidableEq

/-- Python truthiness of an optional string (`None` and `""` are
falsy). -/
def truthyS (o : Option String) : Bool :=
  match o with
  | some v => v != ""
  | none => false

/-- Python truthiness of an optional integer (`None` and `0` are
falsy). -/
def truthyN (o : Option Nat) : Bool :=
  match o with
  | some v => v != 0
  | none => false

/-- `if not facts['name']: ...` block for one message. -/
def stepName (facts : Facts) (message : String) : Facts :=
  if truthyS facts.name then facts
  else
    match extractName message with
    | some v => { facts with name := some v }
    | none => facts

/-- `if not facts['city']: ...` block for one message (sets both city
and location). -/
def stepLoc (facts : Facts) (message : String) : Facts :=
  if truthyS facts.city then facts
  else
    match extractLoc message with
    | some v => { facts with city := some v, location := some v }
    | none => facts

/-- `if not facts['job_role']: ...` block for one message (sets both
job_role and company). -/
def stepJob (facts : Facts) (message : String) : Facts :=
  if truthyS facts.job_role then facts
  else
    match extractJob message with
    | some p => { facts with job_role := some p.1, company := some p.2 }
    | none => facts

/-- `if not facts['birthday']: ...` block for one message. -/
def stepBirthday (facts : Facts) (message : String) : Facts :=
  if truthyS facts.birthday then facts
  else
    match extractBirthday message with
    | some v => { facts with birthday := some v }
    | none => facts

/-- `if not facts['age']: ...` block for one message. -/
def stepAge (facts : Facts) (message : String) : Facts :=
  if truthyN facts.age then facts
  else
    match extractAge message with
    | some v => { facts with age := some v }
    | none => facts

/-- `if 'allergic' in message_lower: ...` block for one message. -/
def stepAllergy (facts : Facts) (message_lower : String) : Facts :=
  { facts with allergies := facts.allergies ++ allergySegsL message_lower }

/-- `if 'vegetarian' in message_lower or 'vegan' in ...` block. -/
def stepDiet (facts : Facts) (message_lower : String) : Facts :=
  if containsS message_lower "vegetarian" || containsS message_lower "vegan" then
    let facts :=
      if containsS message_lower "vegetarian" then
        { facts with dietary_preferences := facts.dietary_preferences ++ ["vegetarian"] }
      else facts
    if containsS message_lower "vegan" then
      { facts with dietary_preferences := facts.dietary_preferences ++ ["vegan"] }
    else facts
  else facts

/-- One iteration of the message loop of `extract_personal_facts`. -/
def factsStep (facts : Facts) (message : String) : Facts :=
  let message_lower := pyLower message
  stepDiet
    (stepAllergy
      (stepAge (stepBirthday (stepJob (stepLoc (stepName facts message) message) message) message)
        message)
      message_lower)
    message_lower

/-- The final comprehension `{k: v for k, v in facts.items() if v or
(isinstance(v, list) and len(v) > 0)}`: falsy scalar entries disappear
(modelled by `none`); list entries survive exactly when non-empty
(modelled by the list itself). -/
def cleanFacts (f : Facts) : Facts :=
  { f with
    name := if truthyS f.name then f.name else none,
    city := if truthyS f.city then f.city else none,
    location := if truthyS f.location then f.location else none,
    job_role := if truthyS f.job_role then f.job_role else none,
    company := if truthyS f.company then f.company else none,
    birthday := if truthyS f.birthday then f.birthday else none,
    age := if truthyN f.age then f.age else none }

/-- `MemoryExtractor.extract_personal_facts`. -/
def extract_personal_facts (messages : List String) : Facts :=
  cleanFacts (messages.foldl factsStep {})

end ChatEngine

namespace ChatEngine

/-! ## `extract_preferences` -/

/-- `self.like_indicators`. -/
def likeIndicators : List String :=
  ["love", "enjoy", "like", "prefer", "favorite", "favourite", "adore", "appreciate"]

/-- `self.dislike_indicators`. -/
def dislikeIndicators : List String :=
  ["hate", "dislike", "don\x27t like", "can\x27t stand", "detest", "loathe"]

/-- The f-string pattern
`{indicator}(?:\s+(?:the|a|an))?\s+([^.!?]+?)(?:\.|!|$)` shared by the
likes and dislikes loops. -/
def prefPattern (indicator : String) : RE :=
  reseq [.lit indicator.data,
        .opt (reseq [.plusG clsWs, realt [.lit "the".data, .lit "a".data, .lit "an".data]]),
        .plusG clsWs,
        .grp 1 (.plusL clsNotTerm),
        realt [.lit ".".data, .lit "!".data, .eos]]

/-- `re.sub(r"\s+(especially|like|such as)", '', item)`. -/
def fillerPattern : RE :=
  reseq [.plusG clsWs,
        .grp 1 (realt [.lit "especially".data, .lit "like".data, .lit "such as".data])]

def reSubFiller (s : String) : String := String.mk (reSubDel false fillerPattern s.data)

/-- The likes loop of `extract_preferences` for one lowercased message,
threading the accumulated `preferences['likes']` list. -/
def likesStep (message_lower : String) (likes0 : List String) : List String :=
  likeIndicators.foldl
    (fun acc indicator =>
      if containsS message_lower indicator then
        match reSearch false (prefPattern indicator) message_lower with
        | some cp =>
          let liked_item := pyStrip (group cp 1)
          let liked_item := reSubFiller liked_item
          if liked_item.length > 2 && !(acc.contains liked_item) then acc ++ [liked_item]
          else acc
        | none => acc
      else acc)
    likes0

/-- The dislikes loop of `extract_preferences` for one lowercased
message (same shape as the likes loop but with no `re.sub` cleanup). -/
def dislikesStep (message_lower : String) (dislikes0 : List String) : List String :=
  dislikeIndicators.foldl
    (fun acc indicator =>
      if containsS message_lower indicator then
        match reSearch false (prefPattern indicator) message_lower with
        | some cp =>
          let disliked_item := pyStrip (group cp 1)
          if disliked_item.length > 2 && !(acc.contains disliked_item) then
            acc ++ [disliked_item]
          else acc
        | none => acc
      else acc)
    dislikes0

/-- `favorite(?:ite)? (?:is|are)?\s+([^.!?]+?)(?:\.|!|$)`. -/
def favoritePattern : RE :=
  reseq [.lit "favorite".data, .opt (.lit "ite".data), .lit " ".data,
        .opt (realt [.lit "is".data, .lit "are".data]),
        .plusG clsWs, .grp 1 (.plusL clsNotTerm),
        realt [.lit ".".data, .lit "!".data, .eos]]

/-- The favorites block of `extract_preferences` for one lowercased
message. -/
def favoritesStep (message_lower : String) (favorites0 : List String) : List String :=
  if containsS message_lower "favorite" || containsS message_lower "favourite" then
    match reSearch false favoritePattern message_lower with
    | some cp =>
      let favorite_item := pyStrip (group cp 1)
      if favorite_item.length > 2 then favorites0 ++ [favorite_item] else favorites0
    | none => favorites0
  else favorites0

/-- The `preferences` dictionary. -/
structure Preferences where
  likes : List String
  dislikes : List String
  favorites : List String
deriving Repr, DecidableEq

/-- `MemoryExtractor.extract_preferences`. -/
def extract_preferences (messages : List String) : Preferences :=
  messages.foldl
    (fun preferences message =>
      let message_lower := pyLower message
      { likes := likesStep message_lower preferences.likes,
        dislikes := dislikesStep message_lower preferences.dislikes,
        favorites := favoritesStep message_lower preferences.favorites })
    ⟨[], [], []⟩

/-! ## `extract_emotions` -/

/-- `self.emotion_keywords`, in source (insertion) order. -/
def emotionKeywords : List (String × List String) :=
  [("happy", ["happy", "excited", "proud", "grateful", "joy", "joyful", "thrilled", "delighted"]),
   ("sad", ["sad", "miss", "depressed", "down", "unhappy", "melancholy"]),
   ("anxious", ["anxious", "worried", "stressed", "nervous", "fear", "afraid", "concerned"]),
   ("frustrated", ["frustrated", "annoyed", "irritated", "angry", "mad", "upset"]),
   ("calm", ["calm", "peaceful", "relaxed", "serene", "tranquil", "content"])]

/-- `any(keyword in message_lower for keyword in keywords)` — the inner
keyword loop with its `break`. -/
def msgMatchesCat (keywords : List String) (message_lower : String) : Bool :=
  keywords.any fun keyword => containsS message_lower keyword

/-- `emotion_counts[emotion] += 1` on a `Counter` modelled as an
insertion-ordered association list: an existing key is bumped in place,
a new key is appended with count 1. -/
def bumpCounter (counts : List (String × Nat)) (e : String) : List (String × Nat) :=
  if counts.any (fun p => p.1 == e) then
    counts.map fun p => if p.1 == e then (p.1, p.2 + 1) else p
  else counts ++ [(e, 1)]

/-- The counting loops of `extract_emotions`. -/
def emotionCounts (messages : List String) : List (String × Nat) :=
  messages.foldl
    (fun counts message =>
      let message_lower := pyLower message
      emotionKeywords.foldl
        (fun cs ek => if msgMatchesCat ek.2 message_lower then bumpCounter cs ek.1 else cs)
        counts)
    []

/-- `Counter.most_common(1)[0]`: the first entry with the maximal
count, ties resolved to the earlier (first-inserted) entry, as with
`heapq.nlargest` over the insertion-ordered items. -/
def mostCommon1 (counts : List (String × Nat)) : Option (String × Nat) :=
  counts.foldl
    (fun best p =>
      match best with
      | none => some p
      | some q => if p.2 > q.2 then some p else some q)
    none

/-- The returned emotion dictionary. -/
structure EmotionalPattern where
  emotion_counts : List (String × Nat)
  dominant_emotion : Option String
  total_emotional_messages : Nat
deriving Repr, DecidableEq

/-- `MemoryExtractor.extract_emotions`. -/
def extract_emotions (messages : List String) : EmotionalPattern :=
  let emotion_counts := emotionCounts messages
  { emotion_counts := emotion_counts,
    dominant_emotion :=
      if emotion_counts.isEmpty then none else (mostCommon1 emotion_counts).map Prod.fst,
    total_emotional_messages := (emotion_counts.map Prod.snd).sum }

end ChatEngine

namespace ChatEngine

/-! ## `personality_engine.py` -/

/-- The memory dictionary handed to the engine: the extractor's output
(`extract_all`), of which the engine only reads the
`personal_facts` entry; `none` models a dictionary without that key. -/
structure Memory where
  personal_facts : Option Facts
deriving Repr

/-- `PersonalityEngine.__init__`: `self.memory = memory or {}` —
`none` models both a missing and an empty dictionary. -/
structure PersonalityEngine where
  memory : Option Memory

/-- `PersonalityEngine.get_user_name`. -/
def get_user_name (e : PersonalityEngine) : String :=
  match e.memory with
  | some mem =>
    match mem.personal_facts with
    | some pf =>
      match pf.name with
      | some name => if name != "" then name else "there"
      | none => "there"
    | none => "there"
  | none => "there"

/-- The openings list of `calm_mentor_style` (only index 0 is ever
used). -/
def calmOpenings : List String :=
  ["I understand where you\x27re coming from, and I\x27d like to share some perspective.",
   "That\x27s a thoughtful observation. Let me offer some guidance.",
   "I appreciate you sharing that. Here\x27s what I\x27ve learned that might help.",
   "You\x27re on the right track. Consider this approach:"]

/-- The closings list of `calm_mentor_style`. -/
def calmClosings : List String :=
  ["Remember, progress takes time, and you\x27re doing great.",
   "Take it one step at a time, and trust the process.",
   "You have the strength to handle this. I believe in you.",
   "Keep moving forward, and don\x27t hesitate to reach out if you need support."]

/-- `PersonalityEngine.calm_mentor_style`: opening, base text and
closing are concatenated first, then the six ordered global
replacements run over the whole accumulated text. -/
def calm_mentor_style (e : PersonalityEngine) (base_response : String) : String :=
  let _user_name := get_user_name e
  let transformed := calmOpenings.getD 0 "" ++ "\n\n" ++ base_response
  let transformed := transformed ++ "\n\n" ++ calmClosings.getD 0 ""
  let transformed := pyReplace transformed "I think" "I believe"
  let transformed := pyReplace transformed "You should break" "You might consider breaking"
  let transformed := pyReplace transformed "You should take" "You might consider taking"
  let transformed := pyReplace transformed "You should create" "You might consider creating"
  let transformed := pyReplace transformed "You should" "You might consider"
  let transformed := pyReplace transformed "You need to" "It would be helpful to"
  transformed

/-- The openings list of `witty_friend_style`, parameterised by the
resolved user name (f-strings in the source). -/
def wittyOpenings (user_name : String) : List String :=
  ["Hey " ++ user_name ++ "! So here\x27s the thing...",
   "Okay " ++ user_name ++ ", let me break this down for you (in the most fun way possible):",
   "Alright, " ++ user_name ++ ", time for some real talk (but make it fun):",
   "Hey " ++ user_name ++ "! *cracks knuckles* Let\x27s dive into this:"]

/-- The closings list of `witty_friend_style`. -/
def wittyClosings : List String :=
  ["Hope that helps! You\x27ve got this!",
   "There you go! Now go be awesome!",
   "That\x27s my take on it! Feel free to hit me up if you need anything else!",
   "Hope that made sense! You\x27re doing great, keep it up!"]

/-- `PersonalityEngine.witty_friend_style`: opening plus base text,
four ordered replacements, then the closing. -/
def witty_friend_style (e : PersonalityEngine) (base_response : String) : String :=
  let user_name := get_user_name e
  let transformed := (wittyOpenings user_name).getD 0 "" ++ "\n\n" ++ base_response
  let transformed := pyReplace transformed "I understand" "I totally get it"
  let transformed := pyReplace transformed "You should" "You could totally"
  let transformed := pyReplace transformed "It is important" "Here\x27s the deal"
  let transformed := pyReplace transformed "I recommend" "My two cents?"
  transformed ++ "\n\n" ++ wittyClosings.getD 0 ""

/-- The openings list of `therapist_style`. -/
def therapistOpenings (user_name : String) : List String :=
  ["I hear you, " ++ user_name ++ ". Let\x27s explore this together.",
   "Thank you for sharing that with me, " ++ user_name ++ ". I want to understand better.",
   "That sounds important to you, " ++ user_name ++ ". Can we unpack this a bit?",
   "I appreciate you opening up about this, " ++ user_name ++ ". Let\x27s look at what\x27s happening here."]

/-- The reflective questions list of `therapist_style`. -/
def therapistQuestions : List String :=
  ["How does that feel to you?",
   "What comes up for you when you think about that?",
   "What would it mean for you if that changed?",
   "How would you like to move forward with this?"]

/-- The closings list of `therapist_style`. -/
def therapistClosings : List String :=
  ["There\x27s no right or wrong answer here. What matters is what feels authentic to you.",
   "Take your time with this. There\x27s no rush, and your feelings are valid.",
   "I\x27m here to support you as you navigate this. How would you like to proceed?",
   "Remember, this is your journey, and you\x27re in control of the pace."]

/-- `PersonalityEngine.therapist_style`: opening plus base text, three
ordered replacements, then the reflective question, then the closing. -/
def therapist_style (e : PersonalityEngine) (base_response : String) : String :=
  let user_name := get_user_name e
  let transformed := (therapistOpenings user_name).getD 0 "" ++ "\n\n" ++ base_response
  let transformed := pyReplace transformed "I think" "It seems like"
  let transformed := pyReplace transformed "You should" "You might find it helpful to"
  let transformed := pyReplace transformed "You need to" "What would it be like if you"
  let transformed := transformed ++ "\n\n" ++ therapistQuestions.getD 0 ""
  transformed ++ "\n\n" ++ therapistClosings.getD 0 ""

/-- `style.lower().replace(' ', '_')`, the normalisation done by
`rewrite_response`. -/
def normalizeStyle (style : String) : String := pyReplace (pyLower style) " " "_"

/-- `PersonalityEngine.rewrite_response`: dispatch on the normalised
style name; the `ValueError` raised for an unknown style is modelled as
`Except.error` carrying the exception message. -/
def rewrite_response (e : PersonalityEngine) (base_response style : String) :
    Except String String :=
  let style := normalizeStyle style
  if style == "calm_mentor" then .ok (calm_mentor_style e base_response)
  else if style == "witty_friend" then .ok (witty_friend_style e base_response)
  else if style == "therapist" then .ok (therapist_style e base_response)
  else
    .error ("Unknown style: " ++ style ++
      ". Choose from: \x27calm_mentor\x27, \x27witty_friend\x27, \x27therapist\x27")

end ChatEngine

namespace ChatEngine

/-! ## Fold characterisation of the scalar fact fields

Each scalar category of `extract_personal_facts` updates its field by
the same scheme: when the current value is falsy, the category's
extraction overwrites it (`updOpt`).  The net effect over a message
list is captured by `chainResult`: the first truthy extracted value
wins and is then frozen; while only falsy values (empty role, age `0`)
have been extracted, the field keeps the latest of them. -/

/-- One update of a guarded scalar field. -/
def updOpt (f : String → Option α) (tr : α → Bool) (cur : Option α) (m : String) : Option α :=
  if cur.any tr then cur
  else
    match f m with
    | some v => some v
    | none => cur

/-- Net effect of folding `updOpt` over a message list: a truthy
initial value stays; otherwise the first truthy extracted value, else
the last extracted (falsy) value, else the initial value. -/
def chainResult (f : String → Option α) (tr : α → Bool) (init : Option α) (ms : List String) :
    Option α :=
  if init.any tr then init
  else (ms.findSome? (fun m => (f m).filter tr) <|> (ms.filterMap f).getLast?) <|> init

theorem foldl_updOpt (f : String → Option α) (tr : α → Bool) :
    ∀ (ms : List String) (init : Option α),
      ms.foldl (updOpt f tr) init = chainResult f tr init ms := by
  intro ms
  induction ms with
  | nil =>
    intro init
    simp [chainResult]
  | cons m ms ih =>
    intro init
    rw [List.foldl_cons, ih]
    by_cases hi : init.any tr
    · have hupd : updOpt f tr init m = init := by simp [updOpt, hi]
      rw [hupd]
      simp [chainResult, hi]
    · have hupd : updOpt f tr init m = (match f m with | some v => some v | none => init) := by
        simp [updOpt, hi]
      rw [hupd]
      cases hfm : f m with
      | none =>
        simp only [chainResult, hi, Bool.false_eq_true, if_false, List.findSome?_cons, hfm,
          List.filterMap_cons, Option.filter]
      | some v =>
        by_cases htv : tr v
        · have h1 : chainResult f tr (some v) ms = some v := by
            simp [chainResult, htv]
          have h2 : chainResult f tr init (m :: ms) = some v := by
            simp only [chainResult, hi, Bool.false_eq_true, if_false, List.findSome?_cons, hfm,
              Option.filter, htv, if_true]
            rfl
          rw [h1, h2]
        · have hguard : (some v).any tr = false := by simp [htv]
          have hfil : Option.filter tr (some v) = none := by simp [Option.filter, htv]
          have h1 : chainResult f tr (some v) ms =
              ((ms.findSome? (fun m => (f m).filter tr) <|> (ms.filterMap f).getLast?) <|> some v) := by
            simp [chainResult, hguard]
          have h2 : chainResult f tr init (m :: ms) =
              ((ms.findSome? (fun m => (f m).filter tr) <|> (v :: ms.filterMap f).getLast?) <|> init) := by
            simp only [chainResult, hi, Bool.false_eq_true, if_false, List.findSome?_cons, hfil,
              List.filterMap_cons, hfm]
          rw [h1, h2]
          cases hfs : ms.findSome? (fun m => (f m).filter tr) with
          | some u => simp
          | none =>
            simp only [Option.none_orElse]
            cases hl : ms.filterMap f with
            | nil => simp
            | cons x xs =>
              have hne : (x :: xs).getLast?.isSome := by
                simp [List.getLast?_isSome]
              cases hg : (x :: xs).getLast? with
              | none => simp [hg] at hne
              | some w => simp [List.getLast?_cons_cons, hg]

end ChatEngine

namespace ChatEngine

/-! ### Projection of `factsStep` onto the individual fields

Each category's block reads and writes disjoint fields, so `factsStep`
acts on every scalar field as an independent `updOpt`-style update. -/

theorem stepName_keeps (f : Facts) (m : String) :
    (stepName f m).city = f.city ∧ (stepName f m).location = f.location ∧
    (stepName f m).job_role = f.job_role ∧ (stepName f m).company = f.company ∧
    (stepName f m).birthday = f.birthday ∧ (stepName f m).age = f.age ∧
    (stepName f m).allergies = f.allergies := by
  unfold stepName
  split
  · exact ⟨rfl, rfl, rfl, rfl, rfl, rfl, rfl⟩
  · cases extractName m <;> exact ⟨rfl, rfl, rfl, rfl, rfl, rfl, rfl⟩

theorem stepLoc_keeps (f : Facts) (m : String) :
    (stepLoc f m).name = f.name ∧
    (stepLoc f m).job_role = f.job_role ∧ (stepLoc f m).company = f.company ∧
    (stepLoc f m).birthday = f.birthday ∧ (stepLoc f m).age = f.age ∧
    (stepLoc f m).allergies = f.allergies := by
  unfold stepLoc
  split
  · exact ⟨rfl, rfl, rfl, rfl, rfl, rfl⟩
  · cases extractLoc m <;> exact ⟨rfl, rfl, rfl, rfl, rfl, rfl⟩

theorem stepJob_keeps (f : Facts) (m : String) :
    (stepJob f m).name = f.name ∧ (stepJob f m).city = f.city ∧
    (stepJob f m).location = f.location ∧
    (stepJob f m).birthday = f.birthday ∧ (stepJob f m).age = f.age ∧
    (stepJob f m).allergies = f.allergies := by
  unfold stepJob
  split
  · exact ⟨rfl, rfl, rfl, rfl, rfl, rfl⟩
  · cases extractJob m <;> exact ⟨rfl, rfl, rfl, rfl, rfl, rfl⟩

theorem stepBirthday_keeps (f : Facts) (m : String) :
    (stepBirthday f m).name = f.name ∧ (stepBirthday f m).city = f.city ∧
    (stepBirthday f m).location = f.location ∧
    (stepBirthday f m).job_role = f.job_role ∧ (stepBirthday f m).company = f.company ∧
    (stepBirthday f m).age = f.age ∧
    (stepBirthday f m).allergies = f.allergies := by
  unfold stepBirthday
  split
  · exact ⟨rfl, rfl, rfl, rfl, rfl, rfl, rfl⟩
  · cases extractBirthday m <;> exact ⟨rfl, rfl, rfl, rfl, rfl, rfl, rfl⟩

theorem stepAge_keeps (f : Facts) (m : String) :
    (stepAge f m).name = f.name ∧ (stepAge f m).city = f.city ∧
    (stepAge f m).location = f.location ∧
    (stepAge f m).job_role = f.job_role ∧ (stepAge f m).company = f.company ∧
    (stepAge f m).birthday = f.birthday ∧
    (stepAge f m).allergies = f.allergies := by
  unfold stepAge
  split
  · exact ⟨rfl, rfl, rfl, rfl, rfl, rfl, rfl⟩
  · cases extractAge m <;> exact ⟨rfl, rfl, rfl, rfl, rfl, rfl, rfl⟩

theorem stepAllergy_keeps (f : Facts) (ml : String) :
    (stepAllergy f ml).name = f.name ∧ (stepAllergy f ml).city = f.city ∧
    (stepAllergy f ml).location = f.location ∧
    (stepAllergy f ml).job_role = f.job_role ∧ (stepAllergy f ml).company = f.company ∧
    (stepAllergy f ml).birthday = f.birthday ∧ (stepAllergy f ml).age = f.age :=
  ⟨rfl, rfl, rfl, rfl, rfl, rfl, rfl⟩

theorem stepDiet_keeps (f : Facts) (ml : String) :
    (stepDiet f ml).name = f.name ∧ (stepDiet f ml).city = f.city ∧
    (stepDiet f ml).location = f.location ∧
    (stepDiet f ml).job_role = f.job_role ∧ (stepDiet f ml).company = f.company ∧
    (stepDiet f ml).birthday = f.birthday ∧ (stepDiet f ml).age = f.age ∧
    (stepDiet f ml).allergies = f.allergies := by
  unfold stepDiet
  split
  · split <;> split <;> exact ⟨rfl, rfl, rfl, rfl, rfl, rfl, rfl, rfl⟩
  · exact ⟨rfl, rfl, rfl, rfl, rfl, rfl, rfl, rfl⟩

theorem truthyS_any (o : Option String) : Option.any (fun v => v != "") o = truthyS o := by
  cases o <;> simp [truthyS]

theorem truthyN_any (o : Option Nat) : Option.any (fun v => v != 0) o = truthyN o := by
  cases o <;> simp [truthyN]

theorem factsStep_name (s : Facts) (m : String) :
    (factsStep s m).name = updOpt extractName (fun v => v != "") s.name m := by
  unfold factsStep
  rw [(stepDiet_keeps _ _).1, (stepAllergy_keeps _ _).1, (stepAge_keeps _ _).1,
    (stepBirthday_keeps _ _).1, (stepJob_keeps _ _).1, (stepLoc_keeps _ _).1]
  unfold stepName updOpt
  rw [truthyS_any]
  by_cases h : truthyS s.name
  · simp [h]
  · simp only [h, Bool.false_eq_true, if_false]
    cases extractName m <;> rfl

theorem factsStep_city (s : Facts) (m : String) :
    (factsStep s m).city = updOpt extractLoc (fun v => v != "") s.city m := by
  unfold factsStep
  rw [(stepDiet_keeps _ _).2.1, (stepAllergy_keeps _ _).2.1, (stepAge_keeps _ _).2.1,
    (stepBirthday_keeps _ _).2.1, (stepJob_keeps _ _).2.1]
  unfold stepLoc updOpt
  rw [truthyS_any, (stepName_keeps s m).1]
  by_cases h : truthyS s.city
  · simp [h, (stepName_keeps s m).1]
  · simp only [h, Bool.false_eq_true, if_false]
    cases extractLoc m
    · exact (stepName_keeps s m).1
    · rfl

theorem factsStep_location (s : Facts) (m : String) :
    (factsStep s m).location =
      (if truthyS s.city then s.location
       else
         match extractLoc m with
         | some v => some v
         | none => s.location) := by
  unfold factsStep
  rw [(stepDiet_keeps _ _).2.2.1, (stepAllergy_keeps _ _).2.2.1, (stepAge_keeps _ _).2.2.1,
    (stepBirthday_keeps _ _).2.2.1, (stepJob_keeps _ _).2.2.1]
  unfold stepLoc
  rw [(stepName_keeps s m).1]
  by_cases h : truthyS s.city
  · simp [h, (stepName_keeps s m).2.1]
  · simp only [h, Bool.false_eq_true, if_false]
    cases extractLoc m
    · simp [(stepName_keeps s m).2.1]
    · rfl

theorem factsStep_job_role (s : Facts) (m : String) :
    (factsStep s m).job_role =
      (if truthyS s.job_role then s.job_role
       else
         match extractJob m with
         | some p => some p.1
         | none => s.job_role) := by
  unfold factsStep
  rw [(stepDiet_keeps _ _).2.2.2.1, (stepAllergy_keeps _ _).2.2.2.1, (stepAge_keeps _ _).2.2.2.1,
    (stepBirthday_keeps _ _).2.2.2.1]
  unfold stepJob
  rw [(stepLoc_keeps _ _).2.1, (stepName_keeps s m).2.2.1]
  by_cases h : truthyS s.job_role
  · simp [h, (stepLoc_keeps _ _).2.1, (stepName_keeps s m).2.2.1]
  · simp only [h, Bool.false_eq_true, if_false]
    cases extractJob m
    · simp [(stepLoc_keeps _ _).2.1, (stepName_keeps s m).2.2.1]
    · rfl

theorem factsStep_company (s : Facts) (m : String) :
    (factsStep s m).company =
      (if truthyS s.job_role then s.company
       else
         match extractJob m with
         | some p => some p.2
         | none => s.company) := by
  unfold factsStep
  rw [(stepDiet_keeps _ _).2.2.2.2.1, (stepAllergy_keeps _ _).2.2.2.2.1,
    (stepAge_keeps _ _).2.2.2.2.1, (stepBirthday_keeps _ _).2.2.2.2.1]
  unfold stepJob
  rw [(stepLoc_keeps _ _).2.1, (stepName_keeps s m).2.2.1]
  by_cases h : truthyS s.job_role
  · simp [h, (stepLoc_keeps _ _).2.2.1, (stepName_keeps s m).2.2.2.1]
  · simp only [h, Bool.false_eq_true, if_false]
    cases extractJob m
    · simp [(stepLoc_keeps _ _).2.2.1, (stepName_keeps s m).2.2.2.1]
    · rfl

theorem factsStep_birthday (s : Facts) (m : String) :
    (factsStep s m).birthday = updOpt extractBirthday (fun v => v != "") s.birthday m := by
  unfold factsStep
  rw [(stepDiet_keeps _ _).2.2.2.2.2.1, (stepAllergy_keeps _ _).2.2.2.2.2.1,
    (stepAge_keeps _ _).2.2.2.2.2.1]
  unfold stepBirthday updOpt
  rw [truthyS_any, (stepJob_keeps _ _).2.2.2.1, (stepLoc_keeps _ _).2.2.2.1,
    (stepName_keeps s m).2.2.2.2.1]
  by_cases h : truthyS s.birthday
  · simp [h, (stepJob_keeps _ _).2.2.2.1, (stepLoc_keeps _ _).2.2.2.1,
      (stepName_keeps s m).2.2.2.2.1]
  · simp only [h, Bool.false_eq_true, if_false]
    cases extractBirthday m
    · simp [(stepJob_keeps _ _).2.2.2.1, (stepLoc_keeps _ _).2.2.2.1,
        (stepName_keeps s m).2.2.2.2.1]
    · rfl

theorem factsStep_age (s : Facts) (m : String) :
    (factsStep s m).age = updOpt extractAge (fun v => v != 0) s.age m := by
  unfold factsStep
  rw [(stepDiet_keeps _ _).2.2.2.2.2.2.1, (stepAllergy_keeps _ _).2.2.2.2.2.2]
  unfold stepAge updOpt
  rw [truthyN_any, (stepBirthday_keeps _ _).2.2.2.2.2.1, (stepJob_keeps _ _).2.2.2.2.1,
    (stepLoc_keeps _ _).2.2.2.2.1, (stepName_keeps s m).2.2.2.2.2.1]
  by_cases h : truthyN s.age
  · simp [h, (stepBirthday_keeps _ _).2.2.2.2.2.1, (stepJob_keeps _ _).2.2.2.2.1,
      (stepLoc_keeps _ _).2.2.2.2.1, (stepName_keeps s m).2.2.2.2.2.1]
  · simp only [h, Bool.false_eq_true, if_false]
    cases extractAge m
    · simp [(stepBirthday_keeps _ _).2.2.2.2.2.1, (stepJob_keeps _ _).2.2.2.2.1,
        (stepLoc_keeps _ _).2.2.2.2.1, (stepName_keeps s m).2.2.2.2.2.1]
    · rfl

theorem factsStep_allergies (s : Facts) (m : String) :
    (factsStep s m).allergies = s.allergies ++ allergySegs m := by
  unfold factsStep
  rw [(stepDiet_keeps _ _).2.2.2.2.2.2.2]
  show (stepAllergy _ _).allergies = _
  unfold stepAllergy allergySegs
  simp only
  rw [(stepAge_keeps _ _).2.2.2.2.2.2, (stepBirthday_keeps _ _).2.2.2.2.2.2,
    (stepJob_keeps _ _).2.2.2.2.2, (stepLoc_keeps _ _).2.2.2.2.2, (stepName_keeps s m).2.2.2.2.2.2]

end ChatEngine

namespace ChatEngine

/-! ### Folding the whole message loop, field by field -/

theorem foldl_facts_name (ms : List String) :
    ∀ s : Facts, (ms.foldl factsStep s).name
      = ms.foldl (updOpt extractName (fun v => v != "")) s.name := by
  induction ms with
  | nil => intro s; rfl
  | cons m ms ih =>
    intro s
    rw [List.foldl_cons, List.foldl_cons, ih, factsStep_name]

theorem foldl_facts_city (ms : List String) :
    ∀ s : Facts, (ms.foldl factsStep s).city
      = ms.foldl (updOpt extractLoc (fun v => v != "")) s.city := by
  induction ms with
  | nil => intro s; rfl
  | cons m ms ih =>
    intro s
    rw [List.foldl_cons, List.foldl_cons, ih, factsStep_city]

theorem foldl_facts_location (ms : List String) :
    ∀ s : Facts, s.location = s.city →
      (ms.foldl factsStep s).location = (ms.foldl factsStep s).city := by
  induction ms with
  | nil => intro s h; exact h
  | cons m ms ih =>
    intro s h
    rw [List.foldl_cons]
    refine ih _ ?_
    rw [factsStep_location, factsStep_city]
    unfold updOpt
    rw [truthyS_any]
    by_cases hc : truthyS s.city
    · simp [hc, h]
    · simp only [hc, Bool.false_eq_true, if_false]
      cases extractLoc m
      · exact h
      · rfl

theorem foldl_facts_birthday (ms : List String) :
    ∀ s : Facts, (ms.foldl factsStep s).birthday
      = ms.foldl (updOpt extractBirthday (fun v => v != "")) s.birthday := by
  induction ms with
  | nil => intro s; rfl
  | cons m ms ih =>
    intro s
    rw [List.foldl_cons, List.foldl_cons, ih, factsStep_birthday]

theorem foldl_facts_age (ms : List String) :
    ∀ s : Facts, (ms.foldl factsStep s).age
      = ms.foldl (updOpt extractAge (fun v => v != 0)) s.age := by
  induction ms with
  | nil => intro s; rfl
  | cons m ms ih =>
    intro s
    rw [List.foldl_cons, List.foldl_cons, ih, factsStep_age]

theorem foldl_facts_job (ms : List String) :
    ∀ (s : Facts) (p : Option (String × String)),
      s.job_role = p.map Prod.fst → s.company = p.map Prod.snd →
      (ms.foldl factsStep s).job_role
          = (ms.foldl (updOpt extractJob (fun q => q.1 != "")) p).map Prod.fst ∧
      (ms.foldl factsStep s).company
          = (ms.foldl (updOpt extractJob (fun q => q.1 != "")) p).map Prod.snd := by
  induction ms with
  | nil => intro s p hr hc; exact ⟨hr, hc⟩
  | cons m ms ih =>
    intro s p hr hc
    rw [List.foldl_cons, List.foldl_cons]
    refine ih _ _ ?_ ?_
    · rw [factsStep_job_role, hr]
      unfold updOpt
      cases p with
      | none =>
        simp only [Option.map_none, truthyS, Option.any_none, Bool.false_eq_true, if_false]
        cases extractJob m <;> simp
      | some q =>
        have hmap : Option.map Prod.fst (some q) = some q.1 := rfl
        rw [hmap]
        simp only [truthyS, Option.any_some]
        by_cases hq : q.1 != ""
        · simp [hq]
        · simp only [hq, Bool.false_eq_true, if_false]
          cases extractJob m <;> simp
    · rw [factsStep_company, hr, hc]
      unfold updOpt
      cases p with
      | none =>
        simp only [Option.map_none, truthyS, Option.any_none, Bool.false_eq_true, if_false]
        cases extractJob m <;> simp
      | some q =>
        have hmap1 : Option.map Prod.fst (some q) = some q.1 := rfl
        have hmap2 : Option.map Prod.snd (some q) = some q.2 := rfl
        rw [hmap1, hmap2]
        simp only [truthyS, Option.any_some]
        by_cases hq : q.1 != ""
        · simp [hq]
        · simp only [hq, Bool.false_eq_true, if_false]
          cases extractJob m <;> simp

theorem foldl_facts_allergies (ms : List String) :
    ∀ s : Facts, (ms.foldl factsStep s).allergies
      = s.allergies ++ (ms.map allergySegs).flatten := by
  induction ms with
  | nil => intro s; simp
  | cons m ms ih =>
    intro s
    rw [List.foldl_cons, ih, factsStep_allergies]
    simp [List.append_assoc]

/-! ### From the chain to the cleaned-up record -/

/-- The cleanup of a falsy-threaded chain is exactly the first truthy
extraction. -/
theorem chain_filter (f : String → Option α) (tr : α → Bool) (ms : List String) :
    Option.filter tr (chainResult f tr none ms)
      = ms.findSome? (fun m => (f m).filter tr) := by
  unfold chainResult
  simp only [Option.any_none, Bool.false_eq_true, if_false]
  cases hfs : ms.findSome? (fun m => (f m).filter tr) with
  | some v =>
    have hv : tr v = true := by
      rcases List.exists_of_findSome?_eq_some hfs with ⟨m, -, hm⟩
      cases hfm : f m with
      | none => rw [hfm] at hm; simp [Option.filter] at hm
      | some w =>
        rw [hfm] at hm
        simp only [Option.filter] at hm
        by_cases htw : tr w
        · simp [htw] at hm; rw [← hm]; exact htw
        · simp [htw] at hm
    simp [Option.filter, hv]
  | none =>
    simp only [Option.some_orElse, Option.none_orElse]
    cases hl : (ms.filterMap f).getLast? with
    | none => simp [Option.filter]
    | some w =>
      have hw : w ∈ ms.filterMap f := List.mem_of_mem_getLast? hl
      rcases List.mem_filterMap.mp hw with ⟨m, hm, hfm⟩
      have : (f m).filter tr = none := (List.findSome?_eq_none_iff.mp hfs) m hm
      rw [hfm] at this
      simp only [Option.filter] at this
      by_cases htw : tr w
      · simp [htw] at this
      · simp [Option.filter, htw]

end ChatEngine

namespace ChatEngine

/-! ### Assembly lemmas for `extract_personal_facts` -/

theorem ifTruthyS_filter (o : Option String) :
    (if truthyS o then o else none) = Option.filter (fun v => v != "") o := by
  cases o with
  | none => rfl
  | some v => simp only [truthyS, Option.filter]

theorem ifTruthyN_filter (o : Option Nat) :
    (if truthyN o then o else none) = Option.filter (fun v => v != 0) o := by
  cases o with
  | none => rfl
  | some v => simp only [truthyN, Option.filter]

theorem findSome?_option_map (g : String → Option α) (h : α → β) :
    ∀ ms : List String, ms.findSome? (fun m => (g m).map h) = (ms.findSome? g).map h := by
  intro ms
  induction ms with
  | nil => rfl
  | cons m ms ih =>
    rw [List.findSome?_cons, List.findSome?_cons]
    cases g m with
    | some v => rfl
    | none => simpa using ih

theorem filter_map_fst (o : Option (String × String)) :
    Option.filter (fun v => v != "") (o.map Prod.fst)
      = (Option.filter (fun q => q.1 != "") o).map Prod.fst := by
  cases o with
  | none => rfl
  | some q =>
    simp only [Option.map_some, Option.filter]
    by_cases h : q.1 != "" <;> simp [h]

theorem facts_name_eq (ms : List String) :
    (extract_personal_facts ms).name
      = ms.findSome? (fun m => (extractName m).filter (fun v => v != "")) := by
  unfold extract_personal_facts cleanFacts
  simp only
  rw [ifTruthyS_filter, foldl_facts_name, foldl_updOpt]
  exact chain_filter extractName (fun v => v != "") ms

theorem facts_city_eq (ms : List String) :
    (extract_personal_facts ms).city
      = ms.findSome? (fun m => (extractLoc m).filter (fun v => v != "")) := by
  unfold extract_personal_facts cleanFacts
  simp only
  rw [ifTruthyS_filter, foldl_facts_city, foldl_updOpt]
  exact chain_filter extractLoc (fun v => v != "") ms

theorem facts_location_eq_city (ms : List String) :
    (extract_personal_facts ms).location = (extract_personal_facts ms).city := by
  unfold extract_personal_facts cleanFacts
  simp only
  rw [ifTruthyS_filter, ifTruthyS_filter, foldl_facts_location ms _ rfl]

theorem facts_birthday_eq (ms : List String) :
    (extract_personal_facts ms).birthday
      = ms.findSome? (fun m => (extractBirthday m).filter (fun v => v != "")) := by
  unfold extract_personal_facts cleanFacts
  simp only
  rw [ifTruthyS_filter, foldl_facts_birthday, foldl_updOpt]
  exact chain_filter extractBirthday (fun v => v != "") ms

theorem facts_age_eq (ms : List String) :
    (extract_personal_facts ms).age
      = ms.findSome? (fun m => (extractAge m).filter (fun v => v != 0)) := by
  unfold extract_personal_facts cleanFacts
  simp only
  rw [ifTruthyN_filter, foldl_facts_age, foldl_updOpt]
  exact chain_filter extractAge (fun v => v != 0) ms

theorem facts_job_role_eq (ms : List String) :
    (extract_personal_facts ms).job_role
      = ms.findSome? (fun m => ((extractJob m).map Prod.fst).filter (fun v => v != "")) := by
  unfold extract_personal_facts cleanFacts
  simp only
  rw [ifTruthyS_filter, (foldl_facts_job ms _ none rfl rfl).1, foldl_updOpt, filter_map_fst,
    chain_filter]
  rw [← findSome?_option_map (fun m => Option.filter (fun q => q.1 != "") (extractJob m))
    Prod.fst ms]
  simp only [filter_map_fst]

theorem facts_company_eq (ms : List String) :
    (extract_personal_facts ms).company
      = Option.filter (fun v => v != "")
          ((ms.findSome? (fun m => (extractJob m).filter (fun q => q.1 != ""))).map Prod.snd
            <|> ((ms.filterMap extractJob).getLast?).map Prod.snd) := by
  unfold extract_personal_facts cleanFacts
  simp only
  rw [ifTruthyS_filter, (foldl_facts_job ms _ none rfl rfl).2, foldl_updOpt]
  unfold chainResult
  simp only [Option.any_none, Bool.false_eq_true, if_false]
  rw [show ((ms.findSome? (fun m => (extractJob m).filter (fun q => q.1 != ""))
        <|> (ms.filterMap extractJob).getLast?) <|> none)
      = (ms.findSome? (fun m => (extractJob m).filter (fun q => q.1 != ""))
        <|> (ms.filterMap extractJob).getLast?) by
    cases ms.findSome? (fun m => (extractJob m).filter (fun q => q.1 != "")) <;>
      cases (ms.filterMap extractJob).getLast? <;> rfl]
  rw [Option.map_orElse]

theorem facts_allergies_eq (ms : List String) :
    (extract_personal_facts ms).allergies = (ms.map allergySegs).flatten := by
  unfold extract_personal_facts cleanFacts
  simp only
  rw [foldl_facts_allergies]
  rfl

end ChatEngine

namespace ChatEngine

/-! ## Claim theorems for `extract_personal_facts` -/

/-- C1 (amended): `extract_personal_facts` is total (the embedding is a
function, so it never raises), and every scalar fact field present in
its result equals the value extracted from the first message, in
order, whose extraction yields a truthy value — truthy-valued fields
are never overwritten.  The amendment over the original claim: a match
whose extracted value is falsy (age `0`, or a whitespace-only job
role) does not freeze the field, so it can be overwritten by a later
match, and `company`, which is written alongside every job match while
`job_role` is falsy, holds the last such match's company when no
truthy job role ever arrives. -/
theorem C1_scalar_fields_first_truthy : ∀ ms : List String,
    (extract_personal_facts ms).name
        = ms.findSome? (fun m => (extractName m).filter (fun v => v != "")) ∧
    (extract_personal_facts ms).city
        = ms.findSome? (fun m => (extractLoc m).filter (fun v => v != "")) ∧
    (extract_personal_facts ms).location = (extract_personal_facts ms).city ∧
    (extract_personal_facts ms).birthday
        = ms.findSome? (fun m => (extractBirthday m).filter (fun v => v != "")) ∧
    (extract_personal_facts ms).age
        = ms.findSome? (fun m => (extractAge m).filter (fun v => v != 0)) ∧
    (extract_personal_facts ms).job_role
        = ms.findSome? (fun m => ((extractJob m).map Prod.fst).filter (fun v => v != "")) ∧
    (extract_personal_facts ms).company
        = Option.filter (fun v => v != "")
            ((ms.findSome? (fun m => (extractJob m).filter (fun q => q.1 != ""))).map Prod.snd
              <|> ((ms.filterMap extractJob).getLast?).map Prod.snd) :=
  fun ms =>
    ⟨facts_name_eq ms, facts_city_eq ms, facts_location_eq_city ms, facts_birthday_eq ms,
     facts_age_eq ms, facts_job_role_eq ms, facts_company_eq ms⟩

/-- C1, counterexample to the claim as stated: on
`["turning 0", "turning 25"]` the first message matching an age
pattern extracts `0`, yet the result's age field is `25` — the field
set by the earlier message was overwritten, because `0` is falsy for
the `if not facts['age']` guard. -/
theorem C1_age_zero_counterexample :
    extractAge "turning 0" = some 0 ∧
    List.findSome? extractAge ["turning 0", "turning 25"] = some 0 ∧
    (extract_personal_facts ["turning 0", "turning 25"]).age = some 25 :=
  ⟨by decide, by decide, by decide⟩

/-- C3 (amended): the name field is only ever set from a message on
which one of the four name regexes matches — but the patterns are
searched with `re.IGNORECASE`, so the captured word need not be
capitalized. -/
theorem C3_name_only_from_patterns : ∀ (ms : List String) (n : String),
    (extract_personal_facts ms).name = some n → ∃ m ∈ ms, extractName m = some n := by
  intro ms n h
  rw [facts_name_eq] at h
  rcases List.exists_of_findSome?_eq_some h with ⟨m, hmem, hm⟩
  refine ⟨m, hmem, ?_⟩
  cases hfm : extractName m with
  | none => rw [hfm] at hm; simp [Option.filter] at hm
  | some w =>
    rw [hfm] at hm
    simp only [Option.filter] at hm
    by_cases htw : w != ""
    · simp only [htw, if_true] at hm
      exact hm
    · simp [htw] at hm

theorem C3_name_only_from_patterns_witness :
    (extract_personal_facts ["my name is alice"]).name = some "alice" ∧
    ∃ m ∈ ["my name is alice"], extractName m = some "alice" :=
  ⟨by decide, C3_name_only_from_patterns ["my name is alice"] "alice" (by decide)⟩

/-- C3, counterexample to the claim as stated: `"my name is alice"`
offers only an uncapitalized candidate name, yet the name field is
set (to `"alice"`), because the `[A-Z][a-z]+` class is searched under
`re.IGNORECASE`. -/
theorem C3_lowercase_name_sets_field :
    (extract_personal_facts ["my name is alice"]).name = some "alice" := by decide

/-- C5: allergies accumulate across all qualifying messages — for
every message whose lowercase form contains `"allergic"` and matches
`allergic to ([^.]+)`, the capture is split on the literal string
`"and"`, every segment is stripped and appended (`allergySegs`); and
the concrete scenario from the spec. -/
theorem C5_allergies_accumulate :
    (∀ ms : List String, (extract_personal_facts ms).allergies = (ms.map allergySegs).flatten) ∧
    allergySegs "I\x27m allergic to peanuts and shellfish." = ["peanuts", "shellfish"] ∧
    (extract_personal_facts ["I\x27m allergic to peanuts and shellfish."]).allergies
        = ["peanuts", "shellfish"] :=
  ⟨facts_allergies_eq, by decide, by decide⟩

end ChatEngine

namespace ChatEngine

/-! ## Claim theorems for `extract_preferences` (concrete runs) -/

/-- C2: the spec's concrete scenario.  Likes and dislikes behave as
claimed, but the favorites regex
`favorite(?:ite)? (?:is|are)?\s+...` demands `is`/`are` (or nothing)
directly after the literal `"favorite "`, so on
`"My favorite color is blue."` it matches nothing and favorites stays
empty — the code never yields `"blue"`. -/
theorem C2_concrete_scenario :
    extract_preferences ["I love pizza.", "I hate mornings.", "My favorite color is blue."]
      = ⟨["pizza", "color is blue"], ["mornings"], []⟩ ∧
    reSearch false favoritePattern (pyLower "My favorite color is blue.") = none := by
  constructor
  · decide
  · decide

/-- C4, counterexample to the claim as stated: the dislikes branch
does not run the `re.sub` filler cleanup, so the stored dislike for
`"I hate mornings especially mondays."` keeps `"especially"`, while
the likes-branch cleanup would have removed it — the two phrase
cleanings are not equivalent functions. -/
theorem C4_dislike_keeps_filler :
    (extract_preferences ["I hate mornings especially mondays."]).dislikes
        = ["mornings especially mondays"] ∧
    reSubFiller (pyStrip "mornings especially mondays") = "mornings mondays" ∧
    ("mornings especially mondays" : String) ≠ "mornings mondays" :=
  ⟨by decide, by decide, by decide⟩

/-- Modelled from the spec: the mirrored per-message
preference-extraction procedure that the spec describes for both
indicator lists — scan each indicator, on a substring hit search
`{indicator}(?:\s+(?:the|a|an))?\s+([^.!?]+?)(?:\.|!|$)`, clean the
captured phrase with `clean`, and append it when longer than 2
characters and not already present. -/
def mirrorStep (indicators : List String) (clean : String → String)
    (message_lower : String) (acc0 : List String) : List String :=
  indicators.foldl
    (fun acc indicator =>
      if containsS message_lower indicator then
        match reSearch false (prefPattern indicator) message_lower with
        | some cp =>
          let item := clean (group cp 1)
          if item.length > 2 && !(acc.contains item) then acc ++ [item]
          else acc
        | none => acc
      else acc)
    acc0

/-- C4 (amended): the dislike branch mirrors the like branch — same
pattern, same extraction, same length/dedup gate — differing only in
the indicator list, the target list, and the cleaning applied to the
captured phrase: likes strip whitespace and then delete the trailing
filler words, dislikes only strip whitespace. -/
theorem C4_dislikes_mirror_likes : ∀ (message_lower : String) (acc : List String),
    dislikesStep message_lower acc
        = mirrorStep dislikeIndicators pyStrip message_lower acc ∧
    likesStep message_lower acc
        = mirrorStep likeIndicators (fun s => reSubFiller (pyStrip s)) message_lower acc :=
  fun _ _ => ⟨rfl, rfl⟩

/-! ## Claim theorem for `calm_mentor_style` (C9) -/

/-- C9: in `calm_mentor_style` the verb-specific `"You should take"`
replacement runs before the generic `"You should"` one, so the output
for `"You should take a break."` contains
`"You might consider taking a break."` and never the mangled
`"You might consider take"`. -/
theorem C9_specific_verb_first :
    containsS (calm_mentor_style ⟨none⟩ "You should take a break.")
        "You might consider taking a break." = true ∧
    containsS (calm_mentor_style ⟨none⟩ "You should take a break.")
        "You might consider take" = false :=
  ⟨by decide, by decide⟩

end ChatEngine

namespace ChatEngine

/-! ## Claim theorem for `rewrite_response` (C8) -/

/-- C8: `rewrite_response` normalises the style name by lowercasing
and replacing spaces with underscores, routes the three recognised
values to their transforms, and for every other name produces only a
`ValueError` (`Except.error`) — no text is returned. -/
theorem C8_dispatch_routes_and_rejects :
    ∀ (e : PersonalityEngine) (text style : String),
      (normalizeStyle style = "calm_mentor" →
        rewrite_response e text style = .ok (calm_mentor_style e text)) ∧
      (normalizeStyle style = "witty_friend" →
        rewrite_response e text style = .ok (witty_friend_style e text)) ∧
      (normalizeStyle style = "therapist" →
        rewrite_response e text style = .ok (therapist_style e text)) ∧
      (normalizeStyle style ≠ "calm_mentor" → normalizeStyle style ≠ "witty_friend" →
        normalizeStyle style ≠ "therapist" →
        rewrite_response e text style
          = .error ("Unknown style: " ++ normalizeStyle style ++
              ". Choose from: \x27calm_mentor\x27, \x27witty_friend\x27, \x27therapist\x27")) := by
  intro e text style
  unfold rewrite_response
  refine ⟨?_, ?_, ?_, ?_⟩
  · intro h
    simp [h]
  · intro h
    simp [h]
  · intro h
    simp [h]
  · intro h1 h2 h3
    simp [h1, h2, h3]

theorem C8_dispatch_routes_and_rejects_witness :
    (normalizeStyle "sarcastic" ≠ "calm_mentor" ∧ normalizeStyle "sarcastic" ≠ "witty_friend" ∧
      normalizeStyle "sarcastic" ≠ "therapist" ∧
      rewrite_response ⟨none⟩ "hello" "sarcastic"
        = .error ("Unknown style: " ++ normalizeStyle "sarcastic" ++
            ". Choose from: \x27calm_mentor\x27, \x27witty_friend\x27, \x27therapist\x27")) ∧
    (normalizeStyle "Calm Mentor" = "calm_mentor" ∧
      rewrite_response ⟨none⟩ "hello" "Calm Mentor"
        = .ok (calm_mentor_style ⟨none⟩ "hello")) :=
  ⟨⟨by decide, by decide, by decide,
    (C8_dispatch_routes_and_rejects ⟨none⟩ "hello" "sarcastic").2.2.2
      (by decide) (by decide) (by decide)⟩,
   ⟨by decide,
    (C8_dispatch_routes_and_rejects ⟨none⟩ "hello" "Calm Mentor").1 (by decide)⟩⟩

end ChatEngine

namespace ChatEngine

/-! ## Counting lemmas for `extract_emotions` -/

/-- Dictionary lookup in the association-list `Counter` model. -/
def lookupCount (counts : List (String × Nat)) (e : String) : Option Nat :=
  (counts.find? (fun p => p.1 == e)).map Prod.snd

/-- Number of messages whose lowercase form contains a keyword of the
category. -/
def catCount (keywords : List String) (ms : List String) : Nat :=
  (ms.filter (fun m => msgMatchesCat keywords (pyLower m))).length

/-- Sum of the counter values, i.e. `sum(emotion_counts.values())`. -/
def sumVals (counts : List (String × Nat)) : Nat := (counts.map Prod.snd).sum

theorem bump_find? (cs : List (String × Nat)) (e e' : String) :
    (bumpCounter cs e).find? (fun p => p.1 == e')
      = if cs.any (fun p => p.1 == e) then
          (cs.find? (fun p => p.1 == e')).map
            (fun p => if (p.1 == e) = true then (p.1, p.2 + 1) else p)
        else (cs.find? (fun p => p.1 == e')).or ([(e, 1)].find? (fun p => p.1 == e')) := by
  unfold bumpCounter
  by_cases h : cs.any (fun p => p.1 == e)
  · rw [if_pos h, if_pos h, List.find?_map]
    have hcomp : ((fun p : String × Nat => p.1 == e') ∘
          fun p : String × Nat => if (p.1 == e) = true then (p.1, p.2 + 1) else p)
        = (fun p : String × Nat => p.1 == e') := by
      funext p
      simp only [Function.comp]
      split <;> rfl
    rw [hcomp]
  · rw [if_neg h, if_neg h]
    exact List.find?_append

theorem bump_lookup_same (cs : List (String × Nat)) (e : String) :
    lookupCount (bumpCounter cs e) e = some ((lookupCount cs e).getD 0 + 1) := by
  unfold lookupCount
  rw [bump_find?]
  by_cases h : cs.any (fun p => p.1 == e)
  · rw [if_pos h]
    have hsome : (cs.find? (fun p => p.1 == e)).isSome := by
      rw [List.find?_isSome]
      exact List.any_eq_true.mp h
    cases hf : cs.find? (fun p => p.1 == e) with
    | none => rw [hf] at hsome; simp at hsome
    | some q =>
      have hq : (q.1 == e) = true := @List.find?_some _ (fun p => p.1 == e) q cs hf
      have h1 : q.1 = e := by simpa using hq
      simp [hf, h1]
  · rw [if_neg h]
    have hnone : cs.find? (fun p => p.1 == e) = none := by
      rw [List.find?_eq_none]
      intro p hmem hb
      exact h (List.any_eq_true.mpr ⟨p, hmem, hb⟩)
    simp [hnone]

theorem bump_lookup_other (cs : List (String × Nat)) (e e' : String)
    (h : (e' == e) = false) :
    lookupCount (bumpCounter cs e) e' = lookupCount cs e' := by
  unfold lookupCount
  rw [bump_find?]
  by_cases hin : cs.any (fun p => p.1 == e)
  · rw [if_pos hin]
    cases hf : cs.find? (fun p => p.1 == e') with
    | none => rfl
    | some q =>
      have hq : (q.1 == e') = true := @List.find?_some _ (fun p => p.1 == e') q cs hf
      have hqe : ¬ q.1 = e := by
        have h1 : q.1 = e' := by simpa using hq
        subst h1
        simpa using h
      simp [beq_iff_eq, hqe]
  · rw [if_neg hin]
    cases hf : cs.find? (fun p => p.1 == e') with
    | some q => rfl
    | none =>
      have hee : (e == e') = false := by
        rw [beq_eq_false_iff_ne]
        intro hc
        subst hc
        simp at h
      simp [List.find?_cons, List.find?_nil, hee]

theorem bump_nodup (cs : List (String × Nat)) (e : String)
    (h : (cs.map Prod.fst).Nodup) : ((bumpCounter cs e).map Prod.fst).Nodup := by
  unfold bumpCounter
  by_cases hin : cs.any (fun p => p.1 == e)
  · rw [if_pos hin]
    have heq : (cs.map fun p => if (p.1 == e) = true then (p.1, p.2 + 1) else p).map Prod.fst
        = cs.map Prod.fst := by
      rw [List.map_map]
      apply List.map_congr_left
      intro p _
      simp only [Function.comp]
      split <;> rfl
    rw [heq]
    exact h
  · rw [if_neg hin, List.map_append]
    rw [List.nodup_append]
    refine ⟨h, by simp, ?_⟩
    intro a ha hb
    simp only [List.map_cons, List.map_nil, List.mem_cons, List.not_mem_nil, or_false] at hb
    subst hb
    rcases List.mem_map.mp ha with ⟨p, hmem, hfst⟩
    exact hin (List.any_eq_true.mpr ⟨p, hmem, by simp [hfst]⟩)

theorem sum_bump_map (cs : List (String × Nat)) (e : String) :
    sumVals (cs.map fun p => if (p.1 == e) = true then (p.1, p.2 + 1) else p)
      = sumVals cs + cs.countP (fun p => p.1 == e) := by
  induction cs with
  | nil => rfl
  | cons p cs ih =>
    simp only [List.map_cons, sumVals, List.sum_cons, List.countP_cons] at *
    by_cases hp : (p.1 == e) = true
    · rw [if_pos hp, if_pos hp]
      show p.2 + 1 + _ = _
      omega
    · rw [if_neg hp, if_neg hp]
      omega

theorem countP_key_eq_one (cs : List (String × Nat)) (e : String)
    (hnd : (cs.map Prod.fst).Nodup) (hin : cs.any (fun p => p.1 == e)) :
    cs.countP (fun p => p.1 == e) = 1 := by
  induction cs with
  | nil => simp at hin
  | cons p cs ih =>
    rw [List.map_cons, List.nodup_cons] at hnd
    by_cases hp : (p.1 == e) = true
    · have hz : cs.countP (fun p => p.1 == e) = 0 := by
        rw [List.countP_eq_zero]
        intro q hq hqe
        apply hnd.1
        have h1 : q.1 = e := by simpa using hqe
        have hpe : p.1 = e := by simpa using hp
        rw [hpe, ← h1]
        exact List.mem_map.mpr ⟨q, hq, rfl⟩
      rw [List.countP_cons, hz, if_pos hp]
    · have hin' : cs.any (fun p => p.1 == e) := by
        rcases List.any_eq_true.mp hin with ⟨q, hq, hqe⟩
        rcases List.mem_cons.mp hq with h1 | h1
        · subst h1; exact absurd hqe hp
        · exact List.any_eq_true.mpr ⟨q, h1, hqe⟩
      rw [List.countP_cons, ih hnd.2 hin', if_neg hp]

theorem bump_sum (cs : List (String × Nat)) (e : String)
    (h : (cs.map Prod.fst).Nodup) : sumVals (bumpCounter cs e) = sumVals cs + 1 := by
  unfold bumpCounter
  by_cases hin : cs.any (fun p => p.1 == e)
  · rw [if_pos hin, sum_bump_map, countP_key_eq_one cs e h hin]
  · rw [if_neg hin]
    simp [sumVals]

end ChatEngine

namespace ChatEngine

/-! ### One message: the inner loop over the five categories -/

/-- A conditional bump leaves other keys untouched. -/
theorem step_lookup_other (cs : List (String × Nat)) (k : String) (b : Bool) (e : String)
    (h : (e == k) = false) :
    lookupCount (if b then bumpCounter cs k else cs) e = lookupCount cs e := by
  cases b
  · rfl
  · exact bump_lookup_other cs k e h

/-- Effect of one message's category loop on one category's count. -/
theorem inner_lookup (ml : String) (cs : List (String × Nat)) :
    ∀ ek ∈ emotionKeywords,
      lookupCount
          (emotionKeywords.foldl
            (fun acc ek2 => if msgMatchesCat ek2.2 ml then bumpCounter acc ek2.1 else acc) cs)
          ek.1
        = (if msgMatchesCat ek.2 ml then some ((lookupCount cs ek.1).getD 0 + 1)
           else lookupCount cs ek.1) := by
  intro ek hek
  fin_cases hek <;>
    simp only [emotionKeywords, List.foldl_cons, List.foldl_nil]
  · rw [step_lookup_other _ "calm" _ _ (by decide), step_lookup_other _ "frustrated" _ _ (by decide),
      step_lookup_other _ "anxious" _ _ (by decide), step_lookup_other _ "sad" _ _ (by decide)]
    by_cases hm : msgMatchesCat ["happy", "excited", "proud", "grateful", "joy", "joyful", "thrilled", "delighted"] ml
    · rw [if_pos hm, if_pos hm, bump_lookup_same]
    · rw [if_neg hm, if_neg hm]
  · rw [step_lookup_other _ "calm" _ _ (by decide), step_lookup_other _ "frustrated" _ _ (by decide),
      step_lookup_other _ "anxious" _ _ (by decide)]
    by_cases hm : msgMatchesCat ["sad", "miss", "depressed", "down", "unhappy", "melancholy"] ml
    · rw [if_pos hm, if_pos hm, bump_lookup_same,
        step_lookup_other _ "happy" _ _ (by decide)]
    · rw [if_neg hm, if_neg hm, step_lookup_other _ "happy" _ _ (by decide)]
  · rw [step_lookup_other _ "calm" _ _ (by decide), step_lookup_other _ "frustrated" _ _ (by decide)]
    by_cases hm : msgMatchesCat ["anxious", "worried", "stressed", "nervous", "fear", "afraid", "concerned"] ml
    · rw [if_pos hm, if_pos hm, bump_lookup_same, step_lookup_other _ "sad" _ _ (by decide),
        step_lookup_other _ "happy" _ _ (by decide)]
    · rw [if_neg hm, if_neg hm, step_lookup_other _ "sad" _ _ (by decide),
        step_lookup_other _ "happy" _ _ (by decide)]
  · rw [step_lookup_other _ "calm" _ _ (by decide)]
    by_cases hm : msgMatchesCat ["frustrated", "annoyed", "irritated", "angry", "mad", "upset"] ml
    · rw [if_pos hm, if_pos hm, bump_lookup_same, step_lookup_other _ "anxious" _ _ (by decide),
        step_lookup_other _ "sad" _ _ (by decide), step_lookup_other _ "happy" _ _ (by decide)]
    · rw [if_neg hm, if_neg hm, step_lookup_other _ "anxious" _ _ (by decide),
        step_lookup_other _ "sad" _ _ (by decide), step_lookup_other _ "happy" _ _ (by decide)]
  · by_cases hm : msgMatchesCat ["calm", "peaceful", "relaxed", "serene", "tranquil", "content"] ml
    · rw [if_pos hm, if_pos hm, bump_lookup_same, step_lookup_other _ "frustrated" _ _ (by decide),
        step_lookup_other _ "anxious" _ _ (by decide), step_lookup_other _ "sad" _ _ (by decide),
        step_lookup_other _ "happy" _ _ (by decide)]
    · rw [if_neg hm, if_neg hm, step_lookup_other _ "frustrated" _ _ (by decide),
        step_lookup_other _ "anxious" _ _ (by decide), step_lookup_other _ "sad" _ _ (by decide),
        step_lookup_other _ "happy" _ _ (by decide)]

/-- The inner loop keeps the keys duplicate-free. -/
theorem inner_nodup (ml : String) :
    ∀ (CS : List (String × List String)) (cs : List (String × Nat)),
      (cs.map Prod.fst).Nodup →
      ((CS.foldl (fun acc ek2 => if msgMatchesCat ek2.2 ml then bumpCounter acc ek2.1 else acc)
          cs).map Prod.fst).Nodup := by
  intro CS
  induction CS with
  | nil => intro cs h; exact h
  | cons ek CS ih =>
    intro cs h
    rw [List.foldl_cons]
    apply ih
    by_cases hm : msgMatchesCat ek.2 ml
    · rw [if_pos hm]; exact bump_nodup cs ek.1 h
    · rw [if_neg hm]; exact h

/-- The inner loop adds one to the total per matched category. -/
theorem inner_sum (ml : String) :
    ∀ (CS : List (String × List String)) (cs : List (String × Nat)),
      (cs.map Prod.fst).Nodup →
      sumVals
          (CS.foldl (fun acc ek2 => if msgMatchesCat ek2.2 ml then bumpCounter acc ek2.1 else acc)
            cs)
        = sumVals cs + CS.countP (fun ek2 => msgMatchesCat ek2.2 ml) := by
  intro CS
  induction CS with
  | nil => intro cs h; simp
  | cons ek CS ih =>
    intro cs h
    rw [List.foldl_cons, List.countP_cons]
    by_cases hm : msgMatchesCat ek.2 ml
    · rw [if_pos hm, ih (bumpCounter cs ek.1) (bump_nodup cs ek.1 h), bump_sum cs ek.1 h,
        if_pos hm]
      omega
    · rw [if_neg hm, ih cs h, if_neg hm]
      omega

end ChatEngine

namespace ChatEngine

/-! ### The outer message loop -/

/-- The counting fold of `extract_emotions`, generalised to start from
an arbitrary counter state. -/
def emotionCountsFrom (cs : List (String × Nat)) (messages : List String) :
    List (String × Nat) :=
  messages.foldl
    (fun counts message =>
      emotionKeywords.foldl
        (fun cs2 ek => if msgMatchesCat ek.2 (pyLower message) then bumpCounter cs2 ek.1 else cs2)
        counts)
    cs

theorem emotionCounts_eq_from (ms : List String) : emotionCounts ms = emotionCountsFrom [] ms :=
  rfl

theorem catCount_cons (keywords : List String) (m : String) (ms : List String) :
    catCount keywords (m :: ms)
      = (if msgMatchesCat keywords (pyLower m) then 1 else 0) + catCount keywords ms := by
  unfold catCount
  rw [List.filter_cons]
  by_cases hm : msgMatchesCat keywords (pyLower m)
  · rw [if_pos hm, if_pos hm, List.length_cons]
    omega
  · rw [if_neg hm, if_neg hm]
    omega

theorem outer_nodup (ms : List String) :
    ∀ cs : List (String × Nat), (cs.map Prod.fst).Nodup →
      ((emotionCountsFrom cs ms).map Prod.fst).Nodup := by
  induction ms with
  | nil => intro cs h; exact h
  | cons m ms ih =>
    intro cs h
    rw [show emotionCountsFrom cs (m :: ms)
        = emotionCountsFrom
            (emotionKeywords.foldl
              (fun acc ek2 => if msgMatchesCat ek2.2 (pyLower m) then bumpCounter acc ek2.1
               else acc) cs) ms from rfl]
    exact ih _ (inner_nodup (pyLower m) emotionKeywords cs h)

theorem outer_lookup (ms : List String) :
    ∀ cs : List (String × Nat), (cs.map Prod.fst).Nodup →
      ∀ ek ∈ emotionKeywords,
        lookupCount (emotionCountsFrom cs ms) ek.1
          = (match lookupCount cs ek.1 with
             | some n => some (n + catCount ek.2 ms)
             | none => if catCount ek.2 ms = 0 then none else some (catCount ek.2 ms)) := by
  induction ms with
  | nil =>
    intro cs h ek hek
    show lookupCount cs ek.1 = _
    cases hc : lookupCount cs ek.1 with
    | some n => simp [catCount]
    | none => simp [catCount]
  | cons m ms ih =>
    intro cs h ek hek
    rw [show emotionCountsFrom cs (m :: ms)
        = emotionCountsFrom
            (emotionKeywords.foldl
              (fun acc ek2 => if msgMatchesCat ek2.2 (pyLower m) then bumpCounter acc ek2.1
               else acc) cs) ms from rfl]
    rw [ih _ (inner_nodup (pyLower m) emotionKeywords cs h) ek hek]
    rw [inner_lookup (pyLower m) cs ek hek]
    rw [catCount_cons]
    by_cases hm : msgMatchesCat ek.2 (pyLower m)
    · rw [if_pos hm, if_pos hm]
      cases hc : lookupCount cs ek.1 with
      | some n => simp; omega
      | none =>
        simp only [Option.getD_none, Option.getD_some, Nat.zero_add]
        have : ¬ (1 + catCount ek.2 ms = 0) := by omega
        rw [if_neg this]
    · rw [if_neg hm, if_neg hm]
      cases hc : lookupCount cs ek.1 with
      | some n => simp
      | none => simp

theorem outer_sum (ms : List String) :
    ∀ cs : List (String × Nat), (cs.map Prod.fst).Nodup →
      sumVals (emotionCountsFrom cs ms)
        = sumVals cs
          + (ms.map
              (fun m => emotionKeywords.countP
                (fun ek2 => msgMatchesCat ek2.2 (pyLower m)))).sum := by
  induction ms with
  | nil => intro cs h; simp [emotionCountsFrom]
  | cons m ms ih =>
    intro cs h
    rw [show emotionCountsFrom cs (m :: ms)
        = emotionCountsFrom
            (emotionKeywords.foldl
              (fun acc ek2 => if msgMatchesCat ek2.2 (pyLower m) then bumpCounter acc ek2.1
               else acc) cs) ms from rfl]
    rw [ih _ (inner_nodup (pyLower m) emotionKeywords cs h),
      inner_sum (pyLower m) emotionKeywords cs h]
    simp only [List.map_cons, List.sum_cons]
    omega

end ChatEngine

namespace ChatEngine

/-! ### Exchanging the two summations for the total -/

theorem sum_map_add (f g : α → Nat) (l : List α) :
    (l.map (fun a => f a + g a)).sum = (l.map f).sum + (l.map g).sum := by
  induction l with
  | nil => rfl
  | cons a l ih =>
    simp only [List.map_cons, List.sum_cons, ih]
    omega

theorem sum_map_ite_one (q : α → Bool) (l : List α) :
    (l.map (fun a => if q a then 1 else 0)).sum = l.countP q := by
  induction l with
  | nil => rfl
  | cons a l ih =>
    simp only [List.map_cons, List.sum_cons, ih, List.countP_cons]
    by_cases hq : q a
    · rw [if_pos hq]
      omega
    · rw [if_neg hq]
      omega

theorem countP_cons_swap (p : α → Bool) (a : α) (l : List α) :
    (a :: l).countP p = (if p a then 1 else 0) + l.countP p := by
  rw [List.countP_cons]
  by_cases hp : p a
  · rw [if_pos hp]; omega
  · rw [if_neg hp]; omega

/-- Double counting: summing per-`a` match counts over `A` equals
summing per-`b` match counts over `B`. -/
theorem sum_exchange (p : α → β → Bool) (B : List β) :
    ∀ A : List α,
      (A.map (fun a => B.countP (fun b => p a b))).sum
        = (B.map (fun b => A.countP (fun a => p a b))).sum := by
  intro A
  induction A with
  | nil =>
    simp only [List.map_nil, List.sum_nil]
    induction B with
    | nil => rfl
    | cons b B ihb =>
      simp only [List.map_cons, List.sum_cons, List.countP_nil] at *
      omega
  | cons a A ih =>
    simp only [List.map_cons, List.sum_cons, ih]
    have : (B.map (fun b => (a :: A).countP (fun x => p x b))).sum
        = (B.map (fun b => (if p a b then 1 else 0) + A.countP (fun x => p x b))).sum := by
      congr 1
      apply List.map_congr_left
      intro b _
      exact countP_cons_swap _ _ _
    rw [this, sum_map_add, sum_map_ite_one]

end ChatEngine

namespace ChatEngine

/-! ## Claim theorem for `extract_emotions` counting (C6) -/

/-- C6: each message increments each category's counter by exactly 1
when any of the category's keywords occurs (case-insensitively) in it,
so a category's count is the number of matching messages;
`total_emotional_messages` is the sum of the per-category counts (one
message matching several categories is counted once per category); and
the concrete two-keyword scenario. -/
theorem C6_per_category_message_counts : ∀ ms : List String,
    (∀ ek ∈ emotionKeywords,
      lookupCount (extract_emotions ms).emotion_counts ek.1
        = (if catCount ek.2 ms = 0 then none else some (catCount ek.2 ms))) ∧
    (extract_emotions ms).total_emotional_messages
        = (emotionKeywords.map (fun ek => catCount ek.2 ms)).sum ∧
    extract_emotions ["I am happy but worried."]
        = ⟨[("happy", 1), ("anxious", 1)], some "happy", 2⟩ := by
  intro ms
  refine ⟨?_, ?_, by decide⟩
  · intro ek hek
    have h := outer_lookup ms [] (by simp) ek hek
    rw [show (extract_emotions ms).emotion_counts = emotionCountsFrom [] ms from rfl]
    rw [h]
    rfl
  · have h := outer_sum ms [] (by simp)
    rw [show (extract_emotions ms).total_emotional_messages
        = sumVals (emotionCountsFrom [] ms) from rfl]
    rw [h]
    rw [show sumVals ([] : List (String × Nat)) = 0 from rfl, Nat.zero_add]
    rw [sum_exchange (fun m ek2 => msgMatchesCat ek2.2 (pyLower m)) emotionKeywords ms]
    congr 1
    apply List.map_congr_left
    intro ek _
    rw [catCount, ← List.countP_eq_length_filter]

theorem C6_per_category_message_counts_witness :
    (("happy", ["happy", "excited", "proud", "grateful", "joy", "joyful", "thrilled", "delighted"])
        ∈ emotionKeywords) ∧
    lookupCount (extract_emotions ["I am happy but worried."]).emotion_counts "happy"
      = (if catCount ["happy", "excited", "proud", "grateful", "joy", "joyful", "thrilled",
            "delighted"] ["I am happy but worried."] = 0 then none
         else some (catCount ["happy", "excited", "proud", "grateful", "joy", "joyful",
            "thrilled", "delighted"] ["I am happy but worried."])) :=
  ⟨by decide,
   (C6_per_category_message_counts ["I am happy but worried."]).1
     ("happy", ["happy", "excited", "proud", "grateful", "joy", "joyful", "thrilled", "delighted"])
     (by decide)⟩

end ChatEngine

namespace ChatEngine

/-! ## Characterising `most_common(1)` (C7) -/

/-- `mostCommon1` on a non-empty counter returns its first entry with
the maximal count: every entry is bounded by it, and every entry
strictly before it is strictly smaller. -/
theorem mc1_cons : ∀ (l : List (String × Nat)) (q : String × Nat),
    ∃ r, mostCommon1 (q :: l) = some r ∧ q.2 ≤ r.2 ∧ (∀ x ∈ l, x.2 ≤ r.2) ∧
      (r = q ∨ ∃ i : Fin l.length, r = l.get i ∧ q.2 < r.2 ∧
        ∀ j : Fin l.length, j.1 < i.1 → (l.get j).2 < r.2) := by
  intro l
  induction l with
  | nil =>
    intro q
    exact ⟨q, rfl, Nat.le_refl _, by simp, Or.inl rfl⟩
  | cons x l ih =>
    intro q
    have hstep : mostCommon1 (q :: x :: l) = mostCommon1 ((if x.2 > q.2 then x else q) :: l) := by
      show List.foldl _ (some q) (x :: l) = List.foldl _ (some (if x.2 > q.2 then x else q)) l
      rw [List.foldl_cons]
      congr 1
      show (if x.2 > q.2 then some x else some q) = _
      split <;> rfl
    by_cases hx : x.2 > q.2
    · rw [if_pos hx] at hstep
      obtain ⟨r, hr, hle, hall, hdisj⟩ := ih x
      refine ⟨r, hstep.trans hr, Nat.le_of_lt (Nat.lt_of_lt_of_le hx hle), ?_, ?_⟩
      · intro y hy
        rcases List.mem_cons.mp hy with h1 | h1
        · subst h1; exact hle
        · exact hall y h1
      · rcases hdisj with h1 | ⟨i, hi, hqr, hbef⟩
        · refine Or.inr ⟨⟨0, by simp⟩, ?_, ?_, ?_⟩
          · subst h1; rfl
          · subst h1; exact Nat.lt_of_lt_of_le hx (Nat.le_refl _)
          · intro j hj
            exact absurd hj (by simp)
        · refine Or.inr ⟨⟨i.1 + 1, by simpa using i.2⟩, ?_, ?_, ?_⟩
          · show r = l.get ⟨i.1, _⟩
            rw [hi]
          · exact Nat.lt_trans hx hqr
          · intro j hj
            rcases j with ⟨jv, hjv⟩
            cases jv with
            | zero =>
              show x.2 < r.2
              exact hqr
            | succ k =>
              show (l.get ⟨k, by simpa using hjv⟩).2 < r.2
              exact hbef ⟨k, by simpa using hjv⟩ (by simpa using hj)
    · rw [if_neg hx] at hstep
      obtain ⟨r, hr, hle, hall, hdisj⟩ := ih q
      have hxq : x.2 ≤ q.2 := Nat.le_of_not_lt hx
      refine ⟨r, hstep.trans hr, hle, ?_, ?_⟩
      · intro y hy
        rcases List.mem_cons.mp hy with h1 | h1
        · subst h1; exact Nat.le_trans hxq hle
        · exact hall y h1
      · rcases hdisj with h1 | ⟨i, hi, hqr, hbef⟩
        · exact Or.inl h1
        · refine Or.inr ⟨⟨i.1 + 1, by simpa using i.2⟩, ?_, ?_, ?_⟩
          · show r = l.get ⟨i.1, _⟩
            rw [hi]
          · exact hqr
          · intro j hj
            rcases j with ⟨jv, hjv⟩
            cases jv with
            | zero =>
              show x.2 < r.2
              exact Nat.lt_of_le_of_lt hxq hqr
            | succ k =>
              show (l.get ⟨k, by simpa using hjv⟩).2 < r.2
              exact hbef ⟨k, by simpa using hjv⟩ (by simpa using hj)

/-- A category loop over keywords that all miss is the identity. -/
theorem innerFold_id (ml : String) : ∀ (CS : List (String × List String)) cs,
    (∀ ek ∈ CS, msgMatchesCat ek.2 ml = false) →
    CS.foldl (fun acc ek2 => if msgMatchesCat ek2.2 ml then bumpCounter acc ek2.1 else acc) cs
      = cs := by
  intro CS
  induction CS with
  | nil => intro cs _; rfl
  | cons ek CS ihc =>
    intro cs h
    rw [List.foldl_cons, if_neg ?_]
    · exact ihc cs fun ek2 hek2 => h ek2 (List.mem_cons_of_mem ek hek2)
    · rw [h ek (List.mem_cons_self ek CS)]
      simp

/-- If no message matches any category, the counting loop is the
identity. -/
theorem emotionCountsFrom_id (ms : List String) :
    ∀ cs, (∀ m ∈ ms, ∀ ek ∈ emotionKeywords, msgMatchesCat ek.2 (pyLower m) = false) →
      emotionCountsFrom cs ms = cs := by
  induction ms with
  | nil => intro cs _; rfl
  | cons m ms ih =>
    intro cs h
    rw [show emotionCountsFrom cs (m :: ms)
        = emotionCountsFrom
            (emotionKeywords.foldl
              (fun acc ek2 => if msgMatchesCat ek2.2 (pyLower m) then bumpCounter acc ek2.1
               else acc) cs) ms from rfl]
    rw [innerFold_id (pyLower m) emotionKeywords cs (h m (List.mem_cons_self m ms))]
    exact ih cs fun m2 hm2 => h m2 (List.mem_cons_of_mem m hm2)

end ChatEngine

namespace ChatEngine

/-! ## Claim theorem for `dominant_emotion` (C7) -/

/-- C7: `dominant_emotion` is `none` exactly when no message matched
any category; otherwise it is the name of a counter entry whose count
bounds every entry and strictly exceeds every earlier-inserted entry
(the first-encountered maximum wins ties, the `heapq.nlargest`
behaviour of `Counter.most_common(1)`). -/
theorem C7_dominant_emotion : ∀ ms : List String,
    ((extract_emotions ms).dominant_emotion = none ↔
      ∀ m ∈ ms, ∀ ek ∈ emotionKeywords, msgMatchesCat ek.2 (pyLower m) = false) ∧
    (∀ e, (extract_emotions ms).dominant_emotion = some e →
      ∃ i : Fin (extract_emotions ms).emotion_counts.length,
        ((extract_emotions ms).emotion_counts.get i).1 = e ∧
        (∀ j : Fin (extract_emotions ms).emotion_counts.length,
          ((extract_emotions ms).emotion_counts.get j).2
            ≤ ((extract_emotions ms).emotion_counts.get i).2) ∧
        (∀ j : Fin (extract_emotions ms).emotion_counts.length,
          j.1 < i.1 →
          ((extract_emotions ms).emotion_counts.get j).2
            < ((extract_emotions ms).emotion_counts.get i).2)) := by
  intro ms
  constructor
  · constructor
    · intro hnone
      have hnil : emotionCounts ms = [] := by
        by_contra hne
        rw [show (extract_emotions ms).dominant_emotion
            = (if (emotionCounts ms).isEmpty then none
               else (mostCommon1 (emotionCounts ms)).map Prod.fst) from rfl] at hnone
        rw [if_neg (by simpa [List.isEmpty_iff] using hne)] at hnone
        cases hcs : emotionCounts ms with
        | nil => exact hne hcs
        | cons c rest =>
          obtain ⟨r, hr, -, -, -⟩ := mc1_cons rest c
          rw [hcs, hr] at hnone
          simp at hnone
      intro m hm ek hek
      by_contra hmatch
      have hcc : catCount ek.2 ms ≠ 0 := by
        unfold catCount
        intro hzero
        rw [List.length_eq_zero, List.filter_eq_nil_iff] at hzero
        exact hzero m hm (by simpa using hmatch)
      have hlook := outer_lookup ms [] (by simp) ek hek
      rw [show emotionCountsFrom [] ms = emotionCounts ms from rfl, hnil] at hlook
      have hlook2 : (none : Option Nat)
          = (if catCount ek.2 ms = 0 then none else some (catCount ek.2 ms)) := hlook
      rw [if_neg hcc] at hlook2
      exact Option.noConfusion hlook2
    · intro hnomatch
      have hnil : emotionCounts ms = [] := by
        rw [emotionCounts_eq_from]
        exact emotionCountsFrom_id ms [] hnomatch
      rw [show (extract_emotions ms).dominant_emotion
          = (if (emotionCounts ms).isEmpty then none
             else (mostCommon1 (emotionCounts ms)).map Prod.fst) from rfl]
      rw [hnil]
      rfl
  · intro e he
    rw [show (extract_emotions ms).dominant_emotion
        = (if (emotionCounts ms).isEmpty then none
           else (mostCommon1 (emotionCounts ms)).map Prod.fst) from rfl] at he
    by_cases hempty : (emotionCounts ms).isEmpty
    · rw [if_pos hempty] at he
      exact Option.noConfusion he
    · rw [if_neg hempty] at he
      have hcs : ∃ c rest, emotionCounts ms = c :: rest := by
        cases hx : emotionCounts ms with
        | nil => rw [hx] at hempty; simp at hempty
        | cons c rest => exact ⟨c, rest, rfl⟩
      obtain ⟨c, rest, hx⟩ := hcs
      rw [hx] at he
      obtain ⟨r, hr, hle, hall, hdisj⟩ := mc1_cons rest c
      rw [hr] at he
      have hre : r.1 = e := by simpa using he
      rw [show (extract_emotions ms).emotion_counts = emotionCounts ms from rfl, hx]
      rcases hdisj with h1 | ⟨i, hi, hqr, hbef⟩
      · refine ⟨⟨0, by simp⟩, ?_, ?_, ?_⟩
        · show c.1 = e
          rw [← h1]; exact hre
        · intro j
          rcases j with ⟨jv, hjv⟩
          cases jv with
          | zero =>
            show c.2 ≤ c.2
            exact Nat.le_refl _
          | succ k =>
            show (rest.get ⟨k, by simpa using hjv⟩).2 ≤ c.2
            have := hall (rest.get ⟨k, by simpa using hjv⟩)
              (List.get_mem rest k (by simpa using hjv))
            subst h1
            exact this
        · intro j hj
          exact absurd hj (by simp)
      · refine ⟨⟨i.1 + 1, by simpa using i.2⟩, ?_, ?_, ?_⟩
        · show (rest.get ⟨i.1, _⟩).1 = e
          have : rest.get ⟨i.1, i.2⟩ = r := by rw [← hi]
          rw [show (⟨i.1, i.2⟩ : Fin rest.length) = i from rfl] at this
          rw [show rest.get ⟨i.1, by simpa using (Nat.succ_lt_succ i.2 : i.1 + 1 < rest.length + 1)⟩
              = rest.get i from by congr]
          rw [← hi]; exact hre
        · intro j
          rcases j with ⟨jv, hjv⟩
          have hgi : (c :: rest).get ⟨i.1 + 1, by simpa using i.2⟩ = r := by
            show rest.get ⟨i.1, _⟩ = r
            rw [show (⟨i.1, _⟩ : Fin rest.length) = i from rfl, ← hi]
          rw [hgi]
          cases jv with
          | zero =>
            show c.2 ≤ r.2
            exact hle
          | succ k =>
            show (rest.get ⟨k, by simpa using hjv⟩).2 ≤ r.2
            exact hall _ (List.get_mem rest k (by simpa using hjv))
        · intro j hj
          rcases j with ⟨jv, hjv⟩
          have hgi : (c :: rest).get ⟨i.1 + 1, by simpa using i.2⟩ = r := by
            show rest.get ⟨i.1, _⟩ = r
            rw [show (⟨i.1, _⟩ : Fin rest.length) = i from rfl, ← hi]
          rw [hgi]
          cases jv with
          | zero =>
            show c.2 < r.2
            exact hqr
          | succ k =>
            show (rest.get ⟨k, by simpa using hjv⟩).2 < r.2
            exact hbef ⟨k, by simpa using hjv⟩ (by simpa using hj)

theorem C7_dominant_emotion_witness :
    ((extract_emotions ["I am sad.", "I am happy."]).dominant_emotion = some "sad") ∧
    (∃ i : Fin (extract_emotions ["I am sad.", "I am happy."]).emotion_counts.length,
      ((extract_emotions ["I am sad.", "I am happy."]).emotion_counts.get i).1 = "sad" ∧
      (∀ j : Fin (extract_emotions ["I am sad.", "I am happy."]).emotion_counts.length,
        ((extract_emotions ["I am sad.", "I am happy."]).emotion_counts.get j).2
          ≤ ((extract_emotions ["I am sad.", "I am happy."]).emotion_counts.get i).2) ∧
      (∀ j : Fin (extract_emotions ["I am sad.", "I am happy."]).emotion_counts.length,
        j.1 < i.1 →
        ((extract_emotions ["I am sad.", "I am happy."]).emotion_counts.get j).2
          < ((extract_emotions ["I am sad.", "I am happy."]).emotion_counts.get i).2)) :=
  ⟨by decide,
   (C7_dominant_emotion ["I am sad.", "I am happy."]).2 "sad" (by decide)⟩

end ChatEngine

namespace ChatEngine

/-! ## Symbolic evaluation of the preference search (C10)

`"I don't like X."` for an arbitrary lowercase word `X` is analysed
symbolically: inside the region occupied by `X` every character is a
lowercase letter (or the final full stop), so no `\s+` can match there
and every indicator search either fails outright or hits the one real
occurrence in the fixed prefix. -/

theorem mmatch_eps (ic : Bool) (s : List Char) (cp : Caps) (k : List Char → Caps → Option Caps) :
    mmatch ic .eps s cp k = k s cp := rfl

theorem mmatch_lit (ic : Bool) (w : List Char) (s : List Char) (cp : Caps)
    (k : List Char → Caps → Option Caps) :
    mmatch ic (.lit w) s cp k = if litAt ic w s then k (s.drop w.length) cp else none := rfl

theorem mmatch_cat (ic : Bool) (r1 r2 : RE) (s : List Char) (cp : Caps)
    (k : List Char → Caps → Option Caps) :
    mmatch ic (.cat r1 r2) s cp k
      = mmatch ic r1 s cp (fun s2 cp2 => mmatch ic r2 s2 cp2 k) := rfl

theorem mmatch_opt (ic : Bool) (r : RE) (s : List Char) (cp : Caps)
    (k : List Char → Caps → Option Caps) :
    mmatch ic (.opt r) s cp k
      = (match mmatch ic r s cp k with
         | some res => some res
         | none => k s cp) := rfl

theorem mmatch_alt2 (ic : Bool) (r1 r2 : RE) (s : List Char) (cp : Caps)
    (k : List Char → Caps → Option Caps) :
    mmatch ic (.alt2 r1 r2) s cp k
      = (match mmatch ic r1 s cp k with
         | some res => some res
         | none => mmatch ic r2 s cp k) := rfl

theorem mmatch_plusG (ic : Bool) (c : Cls) (s : List Char) (cp : Caps)
    (k : List Char → Caps → Option Caps) :
    mmatch ic (.plusG c) s cp k = tryLens s cp k (descLens (runLen ic c s) 1) := rfl

theorem mmatch_plusL (ic : Bool) (c : Cls) (s : List Char) (cp : Caps)
    (k : List Char → Caps → Option Caps) :
    mmatch ic (.plusL c) s cp k = tryLens s cp k (ascLensAux (runLen ic c s) 1) := rfl

theorem mmatch_grp (ic : Bool) (n : Nat) (r : RE) (s : List Char) (cp : Caps)
    (k : List Char → Caps → Option Caps) :
    mmatch ic (.grp n r) s cp k
      = mmatch ic r s cp (fun s2 cp2 => k s2 (setCap cp2 n (s.take (s.length - s2.length)))) :=
  rfl

theorem mmatch_eos (ic : Bool) (s : List Char) (cp : Caps)
    (k : List Char → Caps → Option Caps) :
    mmatch ic .eos s cp k = if s.isEmpty || s == [Char.ofNat 10] then k s cp else none := rfl

/-- Characters that may occur in the symbolic region: lowercase ASCII
letters and the closing full stop. -/
def LowDot (l : List Char) : Prop :=
  ∀ c ∈ l, (97 ≤ c.toNat ∧ c.toNat ≤ 122) ∨ c = Char.ofNat 46

theorem lowdot_append_dot (Y : List Char) (hY : ∀ c ∈ Y, 97 ≤ c.toNat ∧ c.toNat ≤ 122) :
    LowDot (Y ++ [Char.ofNat 46]) := by
  intro c hc
  rcases List.mem_append.mp hc with h | h
  · exact Or.inl (hY c h)
  · simp only [List.mem_cons, List.not_mem_nil, or_false] at h
    exact Or.inr h

theorem lowdot_drop (l : List Char) (n : Nat) (h : LowDot l) : LowDot (l.drop n) :=
  fun c hc => h c (List.drop_subset n l hc)

theorem ws_mem_lowdot (c : Char) (h : (97 ≤ c.toNat ∧ c.toNat ≤ 122) ∨ c = Char.ofNat 46) :
    Cls.mem false clsWs c = false := by
  have hn : c.toNat = 46 ∨ (97 ≤ c.toNat ∧ c.toNat ≤ 122) := by
    rcases h with h | h
    · exact Or.inr h
    · subst h; exact Or.inl (by decide)
  have hir : Cls.inRanges clsWs c = false := by
    simp only [Cls.inRanges, clsWs, wsRanges, List.any_cons, List.any_nil,
      show (Char.ofNat 32).toNat = 32 from by decide,
      show (Char.ofNat 9).toNat = 9 from by decide,
      show (Char.ofNat 13).toNat = 13 from by decide,
      show (Char.ofNat 28).toNat = 28 from by decide,
      show (Char.ofNat 31).toNat = 31 from by decide, Bool.or_false,
      Bool.or_eq_false_iff, Bool.and_eq_false_iff, decide_eq_false_iff_not]
    omega
  simp [Cls.mem, hir]
  rfl

theorem runLen_ws_lowdot (s : List Char) (h : LowDot s) : runLen false clsWs s = 0 := by
  cases s with
  | nil => rfl
  | cons c t =>
    show (if Cls.mem false clsWs c then runLen false clsWs t + 1 else 0) = 0
    rw [if_neg]
    rw [ws_mem_lowdot c (h c (List.mem_cons_self c t))]
    simp

/-- A greedy `\s+` cannot start inside the letters-and-dot region. -/
theorem plusG_ws_none (s : List Char) (h : LowDot s) (cp : Caps)
    (k : List Char → Caps → Option Caps) :
    mmatch false (.plusG clsWs) s cp k = none := by
  rw [mmatch_plusG, runLen_ws_lowdot s h]
  rfl

/-- The indicator search pattern cannot match anywhere inside the
letters-and-dot region: after the literal indicator both the optional
article group and the mandatory `\s+` need whitespace. -/
theorem prefPat_fail_lowdot (ind : String) (s : List Char) (hs : LowDot s) (cp : Caps)
    (k : List Char → Caps → Option Caps) :
    mmatch false (prefPattern ind) s cp k = none := by
  rw [show prefPattern ind
      = .cat (.lit ind.data)
          (.cat (.opt (.cat (.plusG clsWs)
              (.cat (.alt2 (.lit "the".data) (.alt2 (.lit "a".data) (.lit "an".data))) .eps)))
            (.cat (.plusG clsWs)
              (.cat (.grp 1 (.plusL clsNotTerm))
                (.cat (.alt2 (.lit ".".data) (.alt2 (.lit "!".data) .eos)) .eps)))) from rfl]
  rw [mmatch_cat, mmatch_lit]
  by_cases hlit : litAt false ind.data s
  · rw [if_pos hlit]
    have hs2 : LowDot (s.drop ind.data.length) := lowdot_drop s _ hs
    show mmatch false (.cat (.opt _) _) (s.drop ind.data.length) cp _ = none
    rw [mmatch_cat, mmatch_opt, mmatch_cat,
      plusG_ws_none (s.drop ind.data.length) hs2]
    show mmatch false (.cat (.plusG clsWs) _) (s.drop ind.data.length) cp _ = none
    rw [mmatch_cat, plusG_ws_none (s.drop ind.data.length) hs2]
  · rw [if_neg hlit]

theorem litAt_space_lowdot (s : List Char) (hs : LowDot s) :
    litAt false " ".data s = false := by
  cases s with
  | nil => rfl
  | cons c t =>
    show ((if false = true then _ else Char.ofNat 32 == c) && litAt false [] t) = false
    rw [if_neg (by simp)]
    have : (Char.ofNat 32 == c) = false := by
      rw [beq_eq_false_iff_ne]
      intro hc
      rcases hs c (List.mem_cons_self c t) with h | h
      · rw [← hc] at h
        simp only [show (Char.ofNat 32).toNat = 32 from by decide] at h
        omega
      · rw [← hc] at h
        exact absurd h (by decide)
    rw [this]
    rfl

/-- The favorites pattern cannot match inside the letters-and-dot
region: the literal space after `favorite(?:ite)?` needs whitespace. -/
theorem favPat_fail_lowdot (s : List Char) (hs : LowDot s) (cp : Caps)
    (k : List Char → Caps → Option Caps) :
    mmatch false favoritePattern s cp k = none := by
  rw [show favoritePattern
      = .cat (.lit "favorite".data)
          (.cat (.opt (.lit "ite".data))
            (.cat (.lit " ".data)
              (.cat (.opt (.alt2 (.lit "is".data) (.lit "are".data)))
                (.cat (.plusG clsWs)
                  (.cat (.grp 1 (.plusL clsNotTerm))
                    (.cat (.alt2 (.lit ".".data) (.alt2 (.lit "!".data) .eos)) .eps)))))) from
      rfl]
  rw [mmatch_cat, mmatch_lit]
  by_cases hlit : litAt false "favorite".data s
  · rw [if_pos hlit]
    have hs2 : LowDot (s.drop 8) := lowdot_drop s _ hs
    show mmatch false (.cat (.opt (.lit "ite".data)) _) (s.drop 8) cp _ = none
    rw [mmatch_cat, mmatch_opt, mmatch_lit]
    by_cases hite : litAt false "ite".data (s.drop 8)
    · rw [if_pos hite]
      have hs3 : LowDot ((s.drop 8).drop 3) := lowdot_drop _ _ hs2
      show (match mmatch false (.cat (.lit " ".data) _) ((s.drop 8).drop 3) cp _ with
            | some res => some res
            | none => mmatch false (.cat (.lit " ".data) _) (s.drop 8) cp _) = none
      rw [mmatch_cat, mmatch_lit, litAt_space_lowdot _ hs3]
      show mmatch false (.cat (.lit " ".data) _) (s.drop 8) cp _ = none
      rw [mmatch_cat, mmatch_lit, litAt_space_lowdot _ hs2]
      rfl
    · rw [if_neg hite]
      show mmatch false (.cat (.lit " ".data) _) (s.drop 8) cp _ = none
      rw [mmatch_cat, mmatch_lit, litAt_space_lowdot _ hs2]
      rfl
  · rw [if_neg hlit]

end ChatEngine

namespace ChatEngine

/-! ### Search positions -/

theorem reSearchL_cons (ic : Bool) (re : RE) (c : Char) (rest : List Char) :
    reSearchL ic re (c :: rest)
      = (match mmatch ic re (c :: rest) [] topK with
         | some cp => some cp
         | none => reSearchL ic re rest) := rfl

theorem reSearchL_none_of_all (ic : Bool) (re : RE) :
    ∀ s : List Char, (∀ n, mmatch ic re (s.drop n) [] topK = none) → reSearchL ic re s = none := by
  intro s
  induction s with
  | nil =>
    intro h
    have h0 := h 0
    show (match mmatch ic re [] [] topK with
          | some cp => some cp
          | none => none) = none
    rw [show List.drop 0 ([] : List Char) = [] from rfl] at h0
    rw [h0]
  | cons c rest ih =>
    intro h
    rw [reSearchL_cons]
    have h0 := h 0
    rw [List.drop_zero] at h0
    rw [h0]
    exact ih fun n => by
      have h1 := h (n + 1)
      rwa [List.drop_succ_cons] at h1

/-- Searching `pre ++ suf` succeeds at the start of `suf` when every
earlier start position fails. -/
theorem reSearchL_hit_after (ic : Bool) (re : RE) (r : Caps) :
    ∀ (pre suf : List Char),
      (∀ n, n < pre.length → mmatch ic re (pre.drop n ++ suf) [] topK = none) →
      mmatch ic re suf [] topK = some r →
      reSearchL ic re (pre ++ suf) = some r := by
  intro pre
  induction pre with
  | nil =>
    intro suf _ hhit
    show reSearchL ic re suf = some r
    cases suf with
    | nil =>
      show (match mmatch ic re [] [] topK with
            | some cp => some cp
            | none => none) = some r
      rw [hhit]
    | cons c rest => rw [reSearchL_cons, hhit]
  | cons p pre ih =>
    intro suf hfail hhit
    show reSearchL ic re (p :: (pre ++ suf)) = some r
    have h0 := hfail 0 (by simp)
    rw [List.drop_zero, List.cons_append] at h0
    rw [reSearchL_cons, h0]
    exact ih suf
      (fun n hn => by
        have h1 := hfail (n + 1) (by simpa using Nat.succ_lt_succ hn)
        rwa [List.drop_succ_cons] at h1)
      hhit

/-- Searching `pre ++ suf` fails when every position in `pre` fails and
every position in `suf` fails. -/
theorem reSearchL_none_parts (ic : Bool) (re : RE) (pre suf : List Char)
    (hfail1 : ∀ n, n < pre.length → mmatch ic re (pre.drop n ++ suf) [] topK = none)
    (hfail2 : ∀ n, mmatch ic re (suf.drop n) [] topK = none) :
    reSearchL ic re (pre ++ suf) = none := by
  apply reSearchL_none_of_all
  intro n
  rw [List.drop_append_eq_append_drop]
  by_cases h : n < pre.length
  · have h2 : suf.drop (n - pre.length) = suf := by
      rw [Nat.sub_eq_zero_of_le (le_of_lt h), List.drop_zero]
    rw [h2]
    exact hfail1 n h
  · have h1 : pre.drop n = [] := List.drop_eq_nil_of_le (by omega)
    rw [h1, List.nil_append]
    exact hfail2 (n - pre.length)

/-! ### Quantifier candidate lists -/

theorem tryLens_one (s : List Char) (cp : Caps) (k : List Char → Caps → Option Caps) (l : Nat) :
    tryLens s cp k [l] = k (s.drop l) cp := by
  show (match k (s.drop l) cp with
        | some r => some r
        | none => tryLens s cp k []) = k (s.drop l) cp
  cases k (s.drop l) cp <;> rfl

/-- A lazy quantifier's ascending candidate scan returns the first hit:
if every candidate below `t` fails and `t` succeeds, the scan returns
the value at `t`. -/
theorem tryLens_asc_hit (s : List Char) (cp : Caps) (k : List Char → Caps → Option Caps)
    (r : Caps) :
    ∀ (cnt st t : Nat), st ≤ t → t < st + cnt →
      (∀ l, st ≤ l → l < t → k (s.drop l) cp = none) →
      k (s.drop t) cp = some r →
      tryLens s cp k (ascLensAux cnt st) = some r := by
  intro cnt
  induction cnt with
  | zero => intro st t h1 h2 _ _; omega
  | succ n ih =>
    intro st t hst htl hfail hhit
    show (match k (s.drop st) cp with
          | some r2 => some r2
          | none => tryLens s cp k (ascLensAux n (st + 1))) = some r
    by_cases he : st = t
    · subst he
      rw [hhit]
    · have hlt : st < t := lt_of_le_of_ne hst he
      rw [hfail st (le_refl st) hlt]
      exact ih (st + 1) t hlt (by omega) (fun l hl1 hl2 => hfail l (by omega) hl2) hhit

/-! ### Literals and classes at the hit position -/

theorem litAt_self_append (w t : List Char) : litAt false w (w ++ t) = true := by
  induction w with
  | nil => rfl
  | cons a as ih =>
    show ((if false = true then pyLowerChar a == pyLowerChar a else a == a)
        && litAt false as (as ++ t)) = true
    rw [if_neg (by simp), beq_self_eq_true, ih]
    rfl

theorem char_beq_false_of_toNat_ne (a c : Char) (h : a.toNat ≠ c.toNat) : (a == c) = false := by
  rw [beq_eq_false_iff_ne]
  intro he
  subst he
  exact h rfl

theorem litAt_single_false (a c : Char) (t : List Char) (h : (a == c) = false) :
    litAt false [a] (c :: t) = false := by
  show ((if false = true then pyLowerChar a == pyLowerChar c else a == c)
      && litAt false [] t) = false
  rw [if_neg (by simp), h]
  rfl

theorem notTerm_mem_low (c : Char) (h : 97 ≤ c.toNat ∧ c.toNat ≤ 122) :
    Cls.mem false clsNotTerm c = true := by
  have hir : Cls.inRanges clsNotTerm c = false := by
    simp only [Cls.inRanges, clsNotTerm, List.any_cons, List.any_nil,
      show ('.' : Char).toNat = 46 from by decide,
      show ('!' : Char).toNat = 33 from by decide,
      show ('?' : Char).toNat = 63 from by decide, Bool.or_false,
      Bool.or_eq_false_iff, Bool.and_eq_false_iff, decide_eq_false_iff_not]
    omega
  simp [Cls.mem, hir]
  rfl

theorem runLen_notTerm (Y : List Char) (hY : ∀ c ∈ Y, 97 ≤ c.toNat ∧ c.toNat ≤ 122) :
    runLen false clsNotTerm (Y ++ [Char.ofNat 46]) = Y.length := by
  induction Y with
  | nil => decide
  | cons c t ih =>
    rw [List.cons_append]
    show (if Cls.mem false clsNotTerm c
          then runLen false clsNotTerm (t ++ [Char.ofNat 46]) + 1 else 0) = t.length + 1
    rw [if_pos (notTerm_mem_low c (hY c (List.mem_cons_self c t))),
      ih (fun d hd => hY d (List.mem_cons_of_mem c hd))]

theorem runLen_ws_spc (Z : List Char) (hZ : LowDot Z) :
    runLen false clsWs (Char.ofNat 32 :: Z) = 1 := by
  show (if Cls.mem false clsWs (Char.ofNat 32) then runLen false clsWs Z + 1 else 0) = 1
  rw [if_pos (by decide), runLen_ws_lowdot Z hZ]

/-! ### The pieces of the preference pattern -/

/-- `(?:the|a|an)`. -/
def artAlt : RE := .alt2 (.lit "the".data) (.alt2 (.lit "a".data) (.lit "an".data))

/-- `\s+(?:the|a|an)` (the body under the optional group). -/
def artSeq : RE := .cat (.plusG clsWs) (.cat artAlt .eps)

/-- `(?:\s+(?:the|a|an))?`. -/
def optArt : RE := .opt artSeq

/-- `(?:\.|!|$)`. -/
def termAlt : RE := .alt2 (.lit ".".data) (.alt2 (.lit "!".data) .eos)

/-- `\s+([^.!?]+?)(?:\.|!|$)` (everything after the optional article). -/
def tailPat : RE :=
  .cat (.plusG clsWs) (.cat (.grp 1 (.plusL clsNotTerm)) (.cat termAlt .eps))

theorem prefPattern_shape (ind : String) :
    prefPattern ind = .cat (.lit ind.data) (.cat optArt tailPat) := rfl

theorem tailPat_none_lowdot (s : List Char) (hs : LowDot s) (cp : Caps)
    (k : List Char → Caps → Option Caps) :
    mmatch false tailPat s cp k = none := by
  rw [show tailPat
      = .cat (.plusG clsWs) (.cat (.grp 1 (.plusL clsNotTerm)) (.cat termAlt .eps)) from rfl,
    mmatch_cat, plusG_ws_none s hs]

/-- The sentence terminator alternative fails on any string starting
with a lowercase letter. -/
theorem termAlt_fail (c : Char) (t : List Char)
    (h : 97 ≤ c.toNat ∧ c.toNat ≤ 122) (cp : Caps) (k : List Char → Caps → Option Caps) :
    mmatch false termAlt (c :: t) cp k = none := by
  have hdot : litAt false ".".data (c :: t) = false := by
    rw [show (".".data : List Char) = [Char.ofNat 46] from rfl]
    apply litAt_single_false
    apply char_beq_false_of_toNat_ne
    intro he
    rw [show (Char.ofNat 46).toNat = 46 from by decide] at he
    omega
  have hbang : litAt false "!".data (c :: t) = false := by
    rw [show ("!".data : List Char) = [Char.ofNat 33] from rfl]
    apply litAt_single_false
    apply char_beq_false_of_toNat_ne
    intro he
    rw [show (Char.ofNat 33).toNat = 33 from by decide] at he
    omega
  have hnl : (c == Char.ofNat 10) = false := by
    apply char_beq_false_of_toNat_ne
    intro he
    rw [show (Char.ofNat 10).toNat = 10 from by decide] at he
    omega
  have heos : ((c :: t).isEmpty || ((c :: t) == [Char.ofNat 10])) = false := by
    show (false || ((c :: t) == [Char.ofNat 10])) = false
    rw [Bool.false_or]
    show ((c == Char.ofNat 10) && List.beq t []) = false
    rw [hnl]
    rfl
  rw [show termAlt = RE.alt2 (.lit ".".data) (.alt2 (.lit "!".data) .eos) from rfl,
    mmatch_alt2, mmatch_lit, if_neg (by simp [hdot])]
  show mmatch false (.alt2 (.lit "!".data) .eos) (c :: t) cp k = none
  rw [mmatch_alt2, mmatch_lit, if_neg (by simp [hbang])]
  show mmatch false .eos (c :: t) cp k = none
  rw [mmatch_eos, if_neg (by rw [heos]; exact Bool.false_ne_true)]

/-- The optional-article body fails on a space followed by a
letters-and-dot region whenever the continuation fails on every suffix
of that region. -/
theorem artSeq_fail (Z : List Char) (hZ : LowDot Z) (cp : Caps)
    (k : List Char → Caps → Option Caps)
    (hk : ∀ n, k (Z.drop n) cp = none) :
    mmatch false artSeq (Char.ofNat 32 :: Z) cp k = none := by
  rw [show artSeq = RE.cat (.plusG clsWs) (.cat artAlt .eps) from rfl, mmatch_cat,
    mmatch_plusG, runLen_ws_spc Z hZ, show descLens 1 1 = [1] from by decide, tryLens_one]
  show mmatch false (.cat artAlt .eps) Z cp k = none
  rw [mmatch_cat]
  have hbr : ∀ (w : List Char),
      (if litAt false w Z = true
        then (fun s2 cp2 => mmatch false RE.eps s2 cp2 k) (Z.drop w.length) cp
        else none) = none := by
    intro w
    by_cases hw : litAt false w Z = true
    · rw [if_pos hw]
      show k (Z.drop w.length) cp = none
      exact hk w.length
    · rw [if_neg hw]
  rw [show artAlt = RE.alt2 (.lit "the".data) (.alt2 (.lit "a".data) (.lit "an".data)) from rfl,
    mmatch_alt2, mmatch_lit, hbr "the".data]
  show mmatch false (.alt2 (.lit "a".data) (.lit "an".data)) Z cp
      (fun s2 cp2 => mmatch false RE.eps s2 cp2 k) = none
  rw [mmatch_alt2, mmatch_lit, hbr "a".data]
  show mmatch false (.lit "an".data) Z cp
      (fun s2 cp2 => mmatch false RE.eps s2 cp2 k) = none
  rw [mmatch_lit]
  exact hbr "an".data

/-- The indicator pattern, matched exactly at its real occurrence
`ind␣Y.` with `Y` a nonempty lowercase word, succeeds and captures
exactly `Y` as group 1. -/
theorem prefPat_hit (ind : String) (Y : List Char)
    (hY : ∀ c ∈ Y, 97 ≤ c.toNat ∧ c.toNat ≤ 122) (h0 : 0 < Y.length) :
    mmatch false (prefPattern ind)
        (ind.data ++ (Char.ofNat 32 :: (Y ++ [Char.ofNat 46]))) [] topK
      = some [(1, Y)] := by
  have hZ : LowDot (Y ++ [Char.ofNat 46]) := lowdot_append_dot Y hY
  rw [prefPattern_shape, mmatch_cat, mmatch_lit,
    if_pos (litAt_self_append ind.data _), List.drop_left]
  show mmatch false (.cat optArt tailPat)
      (Char.ofNat 32 :: (Y ++ [Char.ofNat 46])) [] topK = some [(1, Y)]
  rw [mmatch_cat, show optArt = RE.opt artSeq from rfl, mmatch_opt,
    artSeq_fail (Y ++ [Char.ofNat 46]) hZ [] _ (fun n => by
      show mmatch false tailPat ((Y ++ [Char.ofNat 46]).drop n) [] topK = none
      exact tailPat_none_lowdot _ (lowdot_drop _ n hZ) [] topK)]
  show mmatch false tailPat (Char.ofNat 32 :: (Y ++ [Char.ofNat 46])) [] topK = some [(1, Y)]
  rw [show tailPat
      = RE.cat (.plusG clsWs) (.cat (.grp 1 (.plusL clsNotTerm)) (.cat termAlt .eps)) from rfl,
    mmatch_cat, mmatch_plusG, runLen_ws_spc _ hZ,
    show descLens 1 1 = [1] from by decide, tryLens_one]
  show mmatch false (.cat (.grp 1 (.plusL clsNotTerm)) (.cat termAlt .eps))
      (Y ++ [Char.ofNat 46]) [] topK = some [(1, Y)]
  rw [mmatch_cat, mmatch_grp, mmatch_plusL, runLen_notTerm Y hY]
  refine tryLens_asc_hit _ _ _ _ Y.length 1 Y.length h0 (by omega) ?_ ?_
  · intro l hl1 hl2
    show mmatch false (.cat termAlt .eps) ((Y ++ [Char.ofNat 46]).drop l)
        (setCap [] 1 ((Y ++ [Char.ofNat 46]).take
          ((Y ++ [Char.ofNat 46]).length - ((Y ++ [Char.ofNat 46]).drop l).length))) topK
      = none
    have h1 : (Y ++ [Char.ofNat 46]).drop l = Y.drop l ++ [Char.ofNat 46] := by
      rw [List.drop_append_eq_append_drop, Nat.sub_eq_zero_of_le (le_of_lt hl2),
        List.drop_zero]
    have h2 : Y.drop l = Y[l] :: Y.drop (l + 1) := List.drop_eq_getElem_cons hl2
    rw [h1, h2, List.cons_append, mmatch_cat]
    exact termAlt_fail _ _ (hY _ (List.getElem_mem hl2)) _ _
  · show mmatch false (.cat termAlt .eps) ((Y ++ [Char.ofNat 46]).drop Y.length)
        (setCap [] 1 ((Y ++ [Char.ofNat 46]).take
          ((Y ++ [Char.ofNat 46]).length - ((Y ++ [Char.ofNat 46]).drop Y.length).length))) topK
      = some [(1, Y)]
    rw [List.drop_left]
    have h4 : (Y ++ [Char.ofNat 46]).length - ([Char.ofNat 46] : List Char).length
        = Y.length := by
      simp
    rw [h4, List.take_left]
    rfl

end ChatEngine

namespace ChatEngine

/-! ### Cleanup functions are the identity on lowercase words -/

theorem pyLowerChar_low (c : Char) (h : 97 ≤ c.toNat) : pyLowerChar c = c := by
  unfold pyLowerChar
  rw [if_neg (by omega)]

theorem map_low_id (X : String) (h : ∀ c ∈ X.data, 97 ≤ c.toNat ∧ c.toNat ≤ 122) :
    X.data.map pyLowerChar = X.data := by
  have h1 : X.data.map pyLowerChar = X.data.map id :=
    List.map_congr_left (fun c hc => pyLowerChar_low c (h c hc).1)
  rw [h1, List.map_id]

theorem dropWhile_false_all (p : Char → Bool) (l : List Char) (h : ∀ c ∈ l, p c = false) :
    l.dropWhile p = l := by
  cases l with
  | nil => rfl
  | cons c t => rw [List.dropWhile_cons, if_neg (by simp [h c (List.mem_cons_self c t)])]

theorem stripL_letters (l : List Char) (h : ∀ c ∈ l, 97 ≤ c.toNat ∧ c.toNat ≤ 122) :
    stripL l = l := by
  have hws : ∀ c ∈ l, isWsChar c = false := by
    intro c hc
    have hb := h c hc
    simp only [isWsChar, Bool.or_eq_false_iff, Bool.and_eq_false_iff,
      decide_eq_false_iff_not]
    omega
  unfold stripL
  rw [dropWhile_false_all _ l hws,
    dropWhile_false_all _ l.reverse (fun c hc => hws c (List.mem_reverse.mp hc)),
    List.reverse_reverse]

theorem pyStrip_letters (X : String) (h : ∀ c ∈ X.data, 97 ≤ c.toNat ∧ c.toNat ≤ 122) :
    pyStrip X = X := by
  show String.mk (stripL X.data) = X
  rw [stripL_letters X.data h]

theorem fillerPattern_shape :
    fillerPattern = .cat (.plusG clsWs)
      (.cat (.grp 1 (.alt2 (.lit "especially".data)
        (.alt2 (.lit "like".data) (.lit "such as".data)))) .eps) := rfl

theorem reSubDelF_filler_id : ∀ (fuel : Nat) (s : List Char), LowDot s →
    reSubDelF false fillerPattern fuel s = s := by
  intro fuel
  induction fuel with
  | zero => intro s _; cases s <;> rfl
  | succ n ih =>
    intro s hs
    cases s with
    | nil => rfl
    | cons c t =>
      have hm : mmatch false (.grp 0 fillerPattern) (c :: t) [] topK = none := by
        rw [mmatch_grp, fillerPattern_shape, mmatch_cat]
        exact plusG_ws_none _ hs _ _
      show (match mmatch false (.grp 0 fillerPattern) (c :: t) [] topK with
            | some cp =>
              match (getCap cp 0).getD [] with
              | [] => c :: reSubDelF false fillerPattern n t
              | d :: ds => reSubDelF false fillerPattern n ((c :: t).drop (d :: ds).length)
            | none => c :: reSubDelF false fillerPattern n t) = c :: t
      rw [hm]
      show c :: reSubDelF false fillerPattern n t = c :: t
      rw [ih t (fun d hd => hs d (List.mem_cons_of_mem c hd))]

theorem reSubFiller_letters (X : String) (h : ∀ c ∈ X.data, 97 ≤ c.toNat ∧ c.toNat ≤ 122) :
    reSubFiller X = X := by
  show String.mk (reSubDelF false fillerPattern X.data.length X.data) = X
  rw [reSubDelF_filler_id X.data.length X.data (fun c hc => Or.inl (h c hc))]

/-! ### Lowercasing the symbolic message -/

theorem pyLower_msg (X : String) (h : ∀ c ∈ X.data, 97 ≤ c.toNat ∧ c.toNat ≤ 122) :
    pyLower ("I don\x27t like " ++ X ++ ".")
      = String.mk ("i don\x27t like ".data ++ (X.data ++ [Char.ofNat 46])) := by
  show String.mk (("I don\x27t like " ++ X ++ ".").data.map pyLowerChar) = _
  refine congrArg String.mk ?_
  rw [String.data_append, String.data_append, List.map_append, List.map_append,
    show ("I don\x27t like ".data : List Char).map pyLowerChar
      = "i don\x27t like ".data from by decide,
    map_low_id X h,
    show ((".".data : List Char)).map pyLowerChar = [Char.ofNat 46] from by decide,
    List.append_assoc]

/-! ### One step of the indicator loops -/

/-- The body of the likes loop, as a named function of the accumulator. -/
def likeBody (message_lower : String) (acc : List String) (indicator : String) : List String :=
  if containsS message_lower indicator then
    match reSearch false (prefPattern indicator) message_lower with
    | some cp =>
      let liked_item := pyStrip (group cp 1)
      let liked_item := reSubFiller liked_item
      if liked_item.length > 2 && !(acc.contains liked_item) then acc ++ [liked_item]
      else acc
    | none => acc
  else acc

/-- The body of the dislikes loop (no `re.sub` cleanup). -/
def dislikeBody (message_lower : String) (acc : List String) (indicator : String) :
    List String :=
  if containsS message_lower indicator then
    match reSearch false (prefPattern indicator) message_lower with
    | some cp =>
      let disliked_item := pyStrip (group cp 1)
      if disliked_item.length > 2 && !(acc.contains disliked_item) then acc ++ [disliked_item]
      else acc
    | none => acc
  else acc

theorem likesStep_as_fold (msg : String) (acc : List String) :
    likesStep msg acc = likeIndicators.foldl (likeBody msg) acc := rfl

theorem dislikesStep_as_fold (msg : String) (acc : List String) :
    dislikesStep msg acc = dislikeIndicators.foldl (dislikeBody msg) acc := rfl

/-- An indicator whose search fails contributes nothing, whatever its
substring gate says. -/
theorem likeBody_none (msg : String) (acc : List String) (ind : String)
    (h : reSearch false (prefPattern ind) msg = none) :
    likeBody msg acc ind = acc := by
  unfold likeBody
  rw [h]
  split <;> rfl

theorem dislikeBody_none (msg : String) (acc : List String) (ind : String)
    (h : reSearch false (prefPattern ind) msg = none) :
    dislikeBody msg acc ind = acc := by
  unfold dislikeBody
  rw [h]
  split <;> rfl

theorem likeBody_hit (msg ind X : String)
    (hg : containsS msg ind = true)
    (hs : reSearch false (prefPattern ind) msg = some [(1, X.data)])
    (hstrip : pyStrip X = X) (hfill : reSubFiller X = X)
    (hlen : 2 < X.length) :
    likeBody msg [] ind = [X] := by
  unfold likeBody
  rw [if_pos hg, hs]
  simp only [show group [(1, X.data)] 1 = X from rfl, hstrip, hfill]
  have hc : (decide (X.length > 2) && !List.contains [] X) = true := by
    rw [show (List.contains ([] : List String) X) = false from rfl, decide_eq_true hlen]
    rfl
  rw [if_pos hc, List.nil_append]

theorem dislikeBody_hit (msg ind X : String)
    (hg : containsS msg ind = true)
    (hs : reSearch false (prefPattern ind) msg = some [(1, X.data)])
    (hstrip : pyStrip X = X)
    (hlen : 2 < X.length) :
    dislikeBody msg [] ind = [X] := by
  unfold dislikeBody
  rw [if_pos hg, hs]
  simp only [show group [(1, X.data)] 1 = X from rfl, hstrip]
  have hc : (decide (X.length > 2) && !List.contains [] X) = true := by
    rw [show (List.contains ([] : List String) X) = false from rfl, decide_eq_true hlen]
    rfl
  rw [if_pos hc, List.nil_append]

/-- The favorites block contributes nothing when its search fails,
whatever the substring gates say. -/
theorem favoritesStep_nop (msg : String) (f0 : List String)
    (h : reSearch false favoritePattern msg = none) : favoritesStep msg f0 = f0 := by
  unfold favoritesStep
  by_cases hg : (containsS msg "favorite" || containsS msg "favourite") = true
  · rw [if_pos hg, h]
  · rw [if_neg hg]

/-! ### The searches on the symbolic message -/

/-- An indicator pattern that fails at every one of the 13 concrete
start positions fails everywhere: all later positions lie in the
letters-and-dot region. -/
theorem prefSearch_none (ind X : String)
    (hchars : ∀ c ∈ X.data, 97 ≤ c.toNat ∧ c.toNat ≤ 122)
    (hfail1 : ∀ n, n < 13 → mmatch false (prefPattern ind)
        (("i don\x27t like ".data).drop n ++ (X.data ++ [Char.ofNat 46])) [] topK = none) :
    reSearchL false (prefPattern ind)
      ("i don\x27t like ".data ++ (X.data ++ [Char.ofNat 46])) = none := by
  apply reSearchL_none_parts
  · intro n hn
    exact hfail1 n (lt_of_lt_of_eq hn (by decide))
  · intro n
    exact prefPat_fail_lowdot ind _
      (lowdot_drop _ n (lowdot_append_dot X.data hchars)) [] topK

theorem favSearch_none (X : String)
    (hchars : ∀ c ∈ X.data, 97 ≤ c.toNat ∧ c.toNat ≤ 122) :
    reSearchL false favoritePattern
      ("i don\x27t like ".data ++ (X.data ++ [Char.ofNat 46])) = none := by
  apply reSearchL_none_parts
  · intro n hn
    have hn13 : n < 13 := lt_of_lt_of_eq hn (by decide)
    interval_cases n <;> rfl
  · intro n
    exact favPat_fail_lowdot _
      (lowdot_drop _ n (lowdot_append_dot X.data hchars)) [] topK

end ChatEngine

namespace ChatEngine

/-- C10: amended.  The original claim is true only for capture-safe
phrases: for every lowercase single word X of more than 2 letters, the
message "I don\x27t like X." contributes X to both the likes list
(through the indicator "like", matched inside "don\x27t like") and the
dislikes list (through the indicator "don\x27t like"); no other
indicator and no favorites entry fires.  (For general X longer than 2
characters the claim fails: see the counterexample, where a sentence
terminator inside X truncates the capture below the length gate.) -/
theorem C10_dont_like_both_lists (X : String)
    (hchars : ∀ c ∈ X.data, 97 ≤ c.toNat ∧ c.toNat ≤ 122)
    (hlen : 2 < X.length) :
    extract_preferences ["I don\x27t like " ++ X ++ "."] = ⟨[X], [X], []⟩ := by
  have hXlist : 2 < X.data.length := hlen
  have hXpos : 0 < X.data.length := by omega
  have hstrip : pyStrip X = X := pyStrip_letters X hchars
  have hfill : reSubFiller X = X := reSubFiller_letters X hchars
  have hlove : reSearch false (prefPattern "love")
      (String.mk ("i don\x27t like ".data ++ (X.data ++ [Char.ofNat 46]))) = none :=
    prefSearch_none "love" X hchars (by intro n hn; interval_cases n <;> rfl)
  have henjoy : reSearch false (prefPattern "enjoy")
      (String.mk ("i don\x27t like ".data ++ (X.data ++ [Char.ofNat 46]))) = none :=
    prefSearch_none "enjoy" X hchars (by intro n hn; interval_cases n <;> rfl)
  have hprefer : reSearch false (prefPattern "prefer")
      (String.mk ("i don\x27t like ".data ++ (X.data ++ [Char.ofNat 46]))) = none :=
    prefSearch_none "prefer" X hchars (by intro n hn; interval_cases n <;> rfl)
  have hfavor : reSearch false (prefPattern "favorite")
      (String.mk ("i don\x27t like ".data ++ (X.data ++ [Char.ofNat 46]))) = none :=
    prefSearch_none "favorite" X hchars (by intro n hn; interval_cases n <;> rfl)
  have hfavour : reSearch false (prefPattern "favourite")
      (String.mk ("i don\x27t like ".data ++ (X.data ++ [Char.ofNat 46]))) = none :=
    prefSearch_none "favourite" X hchars (by intro n hn; interval_cases n <;> rfl)
  have hadore : reSearch false (prefPattern "adore")
      (String.mk ("i don\x27t like ".data ++ (X.data ++ [Char.ofNat 46]))) = none :=
    prefSearch_none "adore" X hchars (by intro n hn; interval_cases n <;> rfl)
  have happrec : reSearch false (prefPattern "appreciate")
      (String.mk ("i don\x27t like ".data ++ (X.data ++ [Char.ofNat 46]))) = none :=
    prefSearch_none "appreciate" X hchars (by intro n hn; interval_cases n <;> rfl)
  have hhate : reSearch false (prefPattern "hate")
      (String.mk ("i don\x27t like ".data ++ (X.data ++ [Char.ofNat 46]))) = none :=
    prefSearch_none "hate" X hchars (by intro n hn; interval_cases n <;> rfl)
  have hdisl : reSearch false (prefPattern "dislike")
      (String.mk ("i don\x27t like ".data ++ (X.data ++ [Char.ofNat 46]))) = none :=
    prefSearch_none "dislike" X hchars (by intro n hn; interval_cases n <;> rfl)
  have hcant : reSearch false (prefPattern "can\x27t stand")
      (String.mk ("i don\x27t like ".data ++ (X.data ++ [Char.ofNat 46]))) = none :=
    prefSearch_none "can\x27t stand" X hchars (by intro n hn; interval_cases n <;> rfl)
  have hdetest : reSearch false (prefPattern "detest")
      (String.mk ("i don\x27t like ".data ++ (X.data ++ [Char.ofNat 46]))) = none :=
    prefSearch_none "detest" X hchars (by intro n hn; interval_cases n <;> rfl)
  have hloathe : reSearch false (prefPattern "loathe")
      (String.mk ("i don\x27t like ".data ++ (X.data ++ [Char.ofNat 46]))) = none :=
    prefSearch_none "loathe" X hchars (by intro n hn; interval_cases n <;> rfl)
  have hfavS : reSearch false favoritePattern
      (String.mk ("i don\x27t like ".data ++ (X.data ++ [Char.ofNat 46]))) = none :=
    favSearch_none X hchars
  have hg_like : containsS
      (String.mk ("i don\x27t like ".data ++ (X.data ++ [Char.ofNat 46]))) "like" = true := rfl
  have hg_dont : containsS
      (String.mk ("i don\x27t like ".data ++ (X.data ++ [Char.ofNat 46])))
      "don\x27t like" = true := rfl
  have hsplit_like : ("i don\x27t like ".data : List Char) ++ (X.data ++ [Char.ofNat 46])
      = "i don\x27t ".data
        ++ ("like".data ++ (Char.ofNat 32 :: (X.data ++ [Char.ofNat 46]))) := by
    rw [show ("i don\x27t like ".data : List Char)
        = "i don\x27t ".data ++ ("like".data ++ [Char.ofNat 32]) from rfl,
      List.append_assoc, List.append_assoc]
    rfl
  have hsplit_dont : ("i don\x27t like ".data : List Char) ++ (X.data ++ [Char.ofNat 46])
      = "i ".data
        ++ ("don\x27t like".data ++ (Char.ofNat 32 :: (X.data ++ [Char.ofNat 46]))) := by
    rw [show ("i don\x27t like ".data : List Char)
        = "i ".data ++ ("don\x27t like".data ++ [Char.ofNat 32]) from rfl,
      List.append_assoc, List.append_assoc]
    rfl
  have hhit_like : reSearch false (prefPattern "like")
      (String.mk ("i don\x27t like ".data ++ (X.data ++ [Char.ofNat 46])))
      = some [(1, X.data)] := by
    show reSearchL false (prefPattern "like")
        ("i don\x27t like ".data ++ (X.data ++ [Char.ofNat 46])) = some [(1, X.data)]
    rw [hsplit_like]
    refine reSearchL_hit_after false (prefPattern "like") [(1, X.data)] "i don\x27t ".data
        ("like".data ++ (Char.ofNat 32 :: (X.data ++ [Char.ofNat 46]))) ?_ ?_
    · intro n hn
      have hn8 : n < 8 := lt_of_lt_of_eq hn (by decide)
      interval_cases n <;> rfl
    · exact prefPat_hit "like" X.data hchars hXpos
  have hhit_dont : reSearch false (prefPattern "don\x27t like")
      (String.mk ("i don\x27t like ".data ++ (X.data ++ [Char.ofNat 46])))
      = some [(1, X.data)] := by
    show reSearchL false (prefPattern "don\x27t like")
        ("i don\x27t like ".data ++ (X.data ++ [Char.ofNat 46])) = some [(1, X.data)]
    rw [hsplit_dont]
    refine reSearchL_hit_after false (prefPattern "don\x27t like") [(1, X.data)] "i ".data
        ("don\x27t like".data ++ (Char.ofNat 32 :: (X.data ++ [Char.ofNat 46]))) ?_ ?_
    · intro n hn
      have hn2 : n < 2 := lt_of_lt_of_eq hn (by decide)
      interval_cases n <;> rfl
    · exact prefPat_hit "don\x27t like" X.data hchars hXpos
  have hlikes : likesStep
      (String.mk ("i don\x27t like ".data ++ (X.data ++ [Char.ofNat 46]))) [] = [X] := by
    rw [likesStep_as_fold,
      show likeIndicators = ["love", "enjoy", "like", "prefer", "favorite", "favourite",
        "adore", "appreciate"] from rfl,
      List.foldl_cons, likeBody_none _ _ _ hlove,
      List.foldl_cons, likeBody_none _ _ _ henjoy,
      List.foldl_cons, likeBody_hit _ _ X hg_like hhit_like hstrip hfill hlen,
      List.foldl_cons, likeBody_none _ _ _ hprefer,
      List.foldl_cons, likeBody_none _ _ _ hfavor,
      List.foldl_cons, likeBody_none _ _ _ hfavour,
      List.foldl_cons, likeBody_none _ _ _ hadore,
      List.foldl_cons, likeBody_none _ _ _ happrec,
      List.foldl_nil]
  have hdislikes : dislikesStep
      (String.mk ("i don\x27t like ".data ++ (X.data ++ [Char.ofNat 46]))) [] = [X] := by
    rw [dislikesStep_as_fold,
      show dislikeIndicators = ["hate", "dislike", "don\x27t like", "can\x27t stand",
        "detest", "loathe"] from rfl,
      List.foldl_cons, dislikeBody_none _ _ _ hhate,
      List.foldl_cons, dislikeBody_none _ _ _ hdisl,
      List.foldl_cons, dislikeBody_hit _ _ X hg_dont hhit_dont hstrip hlen,
      List.foldl_cons, dislikeBody_none _ _ _ hcant,
      List.foldl_cons, dislikeBody_none _ _ _ hdetest,
      List.foldl_cons, dislikeBody_none _ _ _ hloathe,
      List.foldl_nil]
  have hfavs : favoritesStep
      (String.mk ("i don\x27t like ".data ++ (X.data ++ [Char.ofNat 46]))) [] = [] :=
    favoritesStep_nop _ _ hfavS
  unfold extract_preferences
  rw [List.foldl_cons, List.foldl_nil]
  show (⟨likesStep (pyLower ("I don\x27t like " ++ X ++ ".")) [],
        dislikesStep (pyLower ("I don\x27t like " ++ X ++ ".")) [],
        favoritesStep (pyLower ("I don\x27t like " ++ X ++ ".")) []⟩ : Preferences)
      = ⟨[X], [X], []⟩
  rw [pyLower_msg X hchars, hlikes, hdislikes, hfavs]

/-- C10 witness: X = "pizza" lands in both lists. -/
theorem C10_dont_like_both_lists_witness :
    extract_preferences ["I don\x27t like " ++ "pizza" ++ "."]
      = ⟨["pizza"], ["pizza"], []⟩ :=
  C10_dont_like_both_lists "pizza" (by decide) (by decide)

/-- C10 counterexample to the original claim: X = "a.b" is longer than
2 characters, yet "I don\x27t like a.b." contributes nothing to either
list — the lazy capture stops at the first ".", leaving "a", which
fails the length gate. -/
theorem C10_terminator_counterexample :
    2 < ("a.b" : String).length
      ∧ extract_preferences ["I don\x27t like " ++ "a.b" ++ "."] = ⟨[], [], []⟩ := by
  constructor
  · decide
  · decide

end ChatEngine
